import Mathlib

/-!
Verification development for the DYMS interpreter (Go).

This file shallowly embeds the parts of the DYMS runtime that the claims
C1..C10 are about:

* `runtime/enviroment.go` — `Environment` (`DeclareVar`, `AssignVar`,
  `LookupVar`, `Resolve`), with Go `panic` modelled as a distinct outcome.
* the tree-walking evaluator (`Evaluate`, `evaleBlockStatement`,
  `evalForStatement`, `evalBinaryExpr`, `evalAssignmentExpr`, `isTruthy`,
  `callUserFunction`, ...): the interpreter source file of the repository
  (src/unnamed/part_006).
* `runtime/outputingpritier.go` — `Pretty`.
* the bytecode compiler (src/unnamed/part_005) with its `optimize` peephole
  pass, `runtime/bytecode.go` (`Chunk`, `addConst`, `getConstKey`) and
  `runtime/vm.go` (the `VM.Run` dispatch loop).

Modelling conventions:

* Go `float64` is modelled by `GoNum`, an exact fraction of machine-unbounded
  integers (numerator `Int`, positive denominator `Int`).  The DYMS lexer only
  produces integral numeric literals, and every arithmetic step exercised by
  the claims is exact in IEEE-754 double precision as well, so the exact
  model agrees with the Go implementation on all programs appearing in the
  theorems below.  Go `int(f)` truncation toward zero is `GoNum.trunc`,
  and Go integer `%` is `Int.tmod` (truncated modulo, sign of the dividend).
* Go pointer values with observable in-place mutation (`*NumberVal`, whose
  `Value` field the evaluator mutates in place, and `*Environment`) live in
  explicit heaps inside `State`: `cells : List GoNum` for number objects and
  `envs : List EnvRec` for environments; a pointer is an index.  Strings,
  booleans and null objects are never mutated in place by the interpreter,
  so they are modelled immediately.  `sync.Pool` pooled values are only
  reused after an explicit `release*` call, and the interpreter never calls
  those, so `fastNumber`/`fastString`/... always behave as fresh allocations.
* A Go `panic` (environment-resolution failure, constant-assignment guard,
  redeclaration guard, integer division by zero inside `%`) is a process
  abort that `try`/`catch` cannot intercept; it is the `Outcome.goPanic`
  constructor, distinct from `*Error` results (`Outcome.err`), which
  `evalTryStatement` does intercept.  Running out of fuel is
  `Outcome.timeout`; the fuel parameter only limits recursion depth and is
  threaded through every call.
* Host-provided built-in functions (`println`, module functions, ...) are
  external collaborators per the specification and are not part of the
  modelled value universe; no claim exercises them.  The `ImportStatement`
  node and the module registry are likewise outside the modelled fragment.
-/

set_option maxHeartbeats 1000000

namespace DYMS

/-- A single-quote character as a string (used in Go panic messages). -/
def sq : String := String.singleton (Char.ofNat 39)

/-! ## Exact numbers (the model of Go `float64`) -/

/-- Exact rational model of a Go `float64`.  Invariant maintained by all
constructors below: `den > 0`.  Values are not kept normalised; equality and
comparisons cross-multiply. -/
structure GoNum where
  num : Int
  den : Int
  deriving Repr, DecidableEq

/-- Embed an integer. -/
def GoNum.ofInt (n : Int) : GoNum := ⟨n, 1⟩

instance : OfNat GoNum n := ⟨GoNum.ofInt n⟩

/-- Numeric equality of two fraction representations (`==` on float64). -/
def GoNum.qeq (a b : GoNum) : Bool := a.num * b.den == b.num * a.den

/-- `<` on float64. -/
def GoNum.qlt (a b : GoNum) : Bool := a.num * b.den < b.num * a.den

/-- `<=` on float64. -/
def GoNum.qle (a b : GoNum) : Bool := a.num * b.den ≤ b.num * a.den

def GoNum.add (a b : GoNum) : GoNum := ⟨a.num * b.den + b.num * a.den, a.den * b.den⟩

def GoNum.sub (a b : GoNum) : GoNum := ⟨a.num * b.den - b.num * a.den, a.den * b.den⟩

def GoNum.mul (a b : GoNum) : GoNum := ⟨a.num * b.num, a.den * b.den⟩

/-- Exact division; callers guard against a zero divisor.  The sign of the
denominator is repaired so that the `den > 0` invariant is kept. -/
def GoNum.div (a b : GoNum) : GoNum :=
  let n := a.num * b.den
  let d := a.den * b.num
  if d < 0 then ⟨-n, -d⟩ else ⟨n, d⟩

/-- Go `int(f)`: truncation toward zero. -/
def GoNum.trunc (a : GoNum) : Int := a.num.tdiv a.den

/-- Decimal digits of a natural number (most significant first); the first
argument is recursion fuel, always called with enough. -/
def natDigitsAux : Nat → Nat → List Char
  | 0, _ => []
  | Nat.succ fl, n =>
    if n < 10 then [Char.ofNat (48 + n)]
    else natDigitsAux fl (n / 10) ++ [Char.ofNat (48 + n % 10)]

/-- Decimal rendering of a natural number. -/
def natToDecimal (n : Nat) : String := ⟨natDigitsAux (n + 1) n⟩

/-- Decimal rendering of an integer. -/
def intToDecimal : Int → String
  | .ofNat n => natToDecimal n
  | .negSucc m => "-" ++ natToDecimal (m + 1)

/-- Decimal rendering of a `GoNum`, standing in for Go `fmt.Sprintf("%v", f)`.
Exact for integral values (the only numerals the DYMS lexer can produce);
non-integral values are rendered as a normalised fraction `n/d`, a
deterministic stand-in for the host's shortest-decimal float formatting. -/
def GoNum.render (a : GoNum) : String :=
  let t := a.trunc
  if a.qeq (GoNum.ofInt t) then intToDecimal t
  else
    let g : Int := Int.gcd a.num a.den
    intToDecimal (a.num / g) ++ "/" ++ intToDecimal (a.den / g)

/-! ## AST (from `ast/ast.go`)

One inductive mirrors the Go `ast.Stmt` interface (expressions are
statements there as well).  Where the Go struct stores a `*BlockStatement`,
the constructor stores that block's `Statements` list directly.  The
`UnaryExpr.Prefix` field is called `pre` here.  `ImportStatement` is outside
the modelled fragment. -/

inductive Stmt where
  | numericLiteral (value : GoNum)
  | stringLiteral (value : String)
  | booleanLiteral (value : Bool)
  | identifier (symbol : String)
  | binaryExpr (left right : Stmt) (operator : String)
  | assignmentExpr (assignee : Stmt) (value : Stmt)
  | callExpr (callee : Stmt) (args : List Stmt)
  | memberExpr (object : Stmt) (property : String)
  | arrayLiteral (elements : List Stmt)
  | mapLiteral (properties : List (Stmt × Stmt))
  | unaryExpr (operand : Stmt) (operator : String) (pre : Bool)
  | program (body : List Stmt)
  | varDeclaration (ident : String) (value : Stmt) (constant : Bool)
  | blockStatement (statements : List Stmt)
  | ifStatement (condition : Stmt) (consequence : List Stmt)
      (alternative : Option (List Stmt))
  | forStatement (ident : String) (range : Stmt) (body : List Stmt)
  | whileStatement (condition : Stmt) (body : List Stmt)
  | functionDeclaration (name : String) (params : List String) (body : List Stmt)
  | returnStatement (value : Stmt)
  | breakStatement
  | continueStatement
  | tryStatement (tryBlock : List Stmt) (catchBlock : List Stmt) (errorVar : String)
  deriving Repr

/-! ## Runtime values (from `runtime/value.go`) -/

/-- The `RuntimeVal` universe.  `num` is a pointer into `State.cells`
(a `*NumberVal` object); `userFn` captures its defining environment by
pointer (`*Environment`).  `goNil` is the Go `nil` interface value that
several evaluator paths return.  `ret`/`brk`/`cont` are the internal
`ReturnVal`/`BreakVal`/`ContinueVal` sentinels. -/
inductive Value where
  | num (addr : Nat)
  | str (s : String)
  | bool (b : Bool)
  | null
  | goNil
  | arr (elements : List Value)
  | map (properties : List (String × Value))
  | userFn (params : List String) (body : List Stmt) (envId : Nat)
  | ret (inner : Value)
  | brk
  | cont
  deriving Repr

/-- `RuntimeVal.Type()` (the `ValueType` string). -/
def Value.typeName : Value → String
  | .num _ => "Number"
  | .str _ => "String"
  | .bool _ => "Boolean"
  | .null => "Null"
  | .goNil => "<nil>"
  | .arr _ => "Array"
  | .map _ => "Map"
  | .userFn _ _ _ => "Function"
  | .ret _ => "Return"
  | .brk => "Break"
  | .cont => "Continue"

/-- The Go `%T` format of a value (used in evaluator error messages). -/
def Value.goType : Value → String
  | .num _ => "*runtime.NumberVal"
  | .str _ => "*runtime.StringVal"
  | .bool _ => "*runtime.BooleanVal"
  | .null => "*runtime.NullVal"
  | .goNil => "<nil>"
  | .arr _ => "*runtime.ArrayVal"
  | .map _ => "*runtime.MapVal"
  | .userFn _ _ _ => "*runtime.UserFunction"
  | .ret _ => "*runtime.ReturnVal"
  | .brk => "*runtime.BreakVal"
  | .cont => "*runtime.ContinueVal"

/-! ## Environments and the state (from `runtime/enviroment.go`) -/

/-- One `Environment` record: parent pointer, `variables` map (field `vars` here, since `variables` is reserved in Lean) and the
`constants` name set. -/
structure EnvRec where
  parent : Option Nat
  vars : List (String × Value)
  constants : List String
  deriving Repr

/-- The mutable heap: environment records and `*NumberVal` cells. -/
structure State where
  envs : List EnvRec
  cells : List GoNum
  deriving Repr

/-- Insert-or-overwrite into a Go `map[string]V` modelled as an
association list (first match wins on lookup, so overwrite rewrites the
existing entry in place). -/
def mapSet {β : Type} (k : String) (v : β) : List (String × β) → List (String × β)
  | [] => [(k, v)]
  | (k', v') :: rest => if k' == k then (k, v) :: rest else (k', v') :: mapSet k v rest

/-- `NewEnvironment(parent)`: allocate a fresh environment, returning its id. -/
def State.allocEnv (st : State) (parent : Option Nat)
    (vars : List (String × Value)) (consts : List String) : Nat × State :=
  (st.envs.length, { st with envs := st.envs ++ [⟨parent, vars, consts⟩] })

/-- Allocate a fresh `*NumberVal` cell (`fastNumber`), returning its address. -/
def State.allocCell (st : State) (q : GoNum) : Nat × State :=
  (st.cells.length, { st with cells := st.cells ++ [q] })

/-- Read a number cell (address arithmetic never fails in Go; the default is
irrelevant on well-formed states). -/
def State.readCell (st : State) (a : Nat) : GoNum := st.cells.getD a 0

/-- In-place mutation of a `*NumberVal` (`currentNum.Value = ...`). -/
def State.writeCell (st : State) (a : Nat) (q : GoNum) : State :=
  { st with cells := st.cells.set a q }

/-- Update one environment record in the heap. -/
def State.setEnv (st : State) (e : Nat) (r : EnvRec) : State :=
  { st with envs := st.envs.set e r }

/-- `Environment.Resolve`: walk the parent chain to the defining scope.
`none` models the Go panic `Cannot resolve '<name>'...` (on heaps with a
non-decreasing parent pointer, which the interpreter never builds, the chain
walk is cut off). -/
def ResolveAux : Nat → State → Nat → String → Option Nat
  | 0, _, _, _ => none
  | Nat.succ g, st, envId, name =>
    match st.envs.get? envId with
    | none => none
    | some e =>
      if (e.vars.lookup name).isSome then some envId
      else
        match e.parent with
        | none => none
        | some p => if p < envId then ResolveAux g st p name else none

/-- `Environment.Resolve`, with the recursion bounded by the environment
index (parent pointers in every state the interpreter builds point to
strictly older environments, so the bound is never the limiting factor). -/
def Resolve (st : State) (envId : Nat) (name : String) : Option Nat :=
  ResolveAux (envId + 1) st envId name

/-- `Environment.LookupVar`: resolve then read.  `none` is the Go panic. -/
def LookupVar (st : State) (envId : Nat) (name : String) : Option Value := do
  let target ← Resolve st envId name
  let e ← st.envs.get? target
  e.vars.lookup name

/-- `Environment.DeclareVar`: fails (Go panic `It already exists.`) when the
name is already bound in this exact scope; otherwise records the value and
the constant flag. -/
def DeclareVar (st : State) (envId : Nat) (name : String) (value : Value)
    (isConstant : Bool) : Option State :=
  match st.envs.get? envId with
  | none => none
  | some e =>
    if (e.vars.lookup name).isSome then none
    else
      some (st.setEnv envId
        { e with
          vars := mapSet name value e.vars
          constants := if isConstant then e.constants ++ [name] else e.constants })

/-- `Environment.AssignVar`.  Faithfully to the source, the constant check
consults only the *receiver* environment's `constants` set
(`env.constants[name]`), and only afterwards resolves the defining scope and
mutates it.  `Except.error` carries the Go panic message. -/
def AssignVar (st : State) (envId : Nat) (name : String) (value : Value) :
    Except String State :=
  match st.envs.get? envId with
  | none => .error ("Cannot resolve " ++ sq ++ name ++ sq ++ ". Variable does not exist.")
  | some e =>
    if e.constants.contains name then
      .error ("Cannot assign to constant variable " ++ sq ++ name ++ sq ++ ".")
    else
      match Resolve st envId name with
      | none => .error ("Cannot resolve " ++ sq ++ name ++ sq ++ ". Variable does not exist.")
      | some target =>
        match st.envs.get? target with
        | none => .error ("Cannot resolve " ++ sq ++ name ++ sq ++ ". Variable does not exist.")
        | some te =>
          .ok (st.setEnv target { te with vars := mapSet name value te.vars })

/-- Message of the resolution panic. -/
def resolveMsg (name : String) : String :=
  "Cannot resolve " ++ sq ++ name ++ sq ++ ". Variable does not exist."

/-- Message of the redeclaration panic. -/
def declareMsg (name : String) : String :=
  "Cannot declare variable " ++ sq ++ name ++ sq ++ ". It already exists."

/-- Message of the constant-assignment panic. -/
def constMsg (name : String) : String :=
  "Cannot assign to constant variable " ++ sq ++ name ++ sq ++ "."

/-! ## Evaluation outcomes -/

/-- Result of one evaluator step: a value plus the heap, a propagating
`*Error`, a Go panic (uncatchable process abort), or fuel exhaustion. -/
inductive Outcome where
  | ok (v : Value) (st : State)
  | err (msg : String) (st : State)
  | goPanic (msg : String) (st : State)
  | timeout
  deriving Repr

/-- Result of evaluating a list of expressions (argument/element lists). -/
inductive ListOutcome where
  | ok (vs : List Value) (st : State)
  | err (msg : String) (st : State)
  | goPanic (msg : String) (st : State)
  | timeout
  deriving Repr

/-- `isTruthy` (interpreter source, lines 644-658).  The Go `nil` interface
is falsy; `*BooleanVal`, `*NumberVal` and `*StringVal` are inspected; every
other runtime value — including `*NullVal` — falls through to `true`. -/
def isTruthy (st : State) : Value → Bool
  | .goNil => false
  | .bool b => b
  | .num a => !((st.readCell a).qeq 0)
  | .str s => s ≠ ""
  | _ => true

/-- The `String()` method of a runtime value (`value.go`), used by the
string-concatenation paths.  Calling it on the Go `nil` interface is a nil
dereference; the caller handles that case. -/
def goString (st : State) : Value → String
  | .num a => (st.readCell a).render
  | .str s => s
  | .bool b => if b then "true" else "false"
  | .null => "null"
  | .goNil => "<nil>"
  | .arr _ => "[...Array]"
  | .map _ => "\x7b...Map\x7d"
  | .userFn _ _ _ => "[function]"
  | .ret v => goString st v
  | .brk => "break"
  | .cont => "continue"

/-- The Go `%T` format of an AST node (used in the invalid-assignment-target
error message). -/
def Stmt.goType : Stmt → String
  | .numericLiteral _ => "*ast.NumericLiteral"
  | .stringLiteral _ => "*ast.StringLiteral"
  | .booleanLiteral _ => "*ast.BooleanLiteral"
  | .identifier _ => "*ast.Identifier"
  | .binaryExpr _ _ _ => "*ast.BinaryExpr"
  | .assignmentExpr _ _ => "*ast.AssignmentExpr"
  | .callExpr _ _ => "*ast.CallExpr"
  | .memberExpr _ _ => "*ast.MemberExpr"
  | .arrayLiteral _ => "*ast.ArrayLiteral"
  | .mapLiteral _ => "*ast.MapLiteral"
  | .unaryExpr _ _ _ => "*ast.UnaryExpr"
  | .program _ => "*ast.Program"
  | .varDeclaration _ _ _ => "*ast.VarDeclaration"
  | .blockStatement _ => "*ast.BlockStatement"
  | .ifStatement _ _ _ => "*ast.IfStatement"
  | .forStatement _ _ _ => "*ast.ForStatement"
  | .whileStatement _ _ => "*ast.WhileStatement"
  | .functionDeclaration _ _ _ => "*ast.FunctionDeclaration"
  | .returnStatement _ => "*ast.ReturnStatement"
  | .breakStatement => "*ast.BreakStatement"
  | .continueStatement => "*ast.ContinueStatement"
  | .tryStatement _ _ _ => "*ast.TryStatement"

/-! ## Pure pieces of `evalBinaryExpr` (interpreter source, lines 524-641)

The Go function is a sequence of type-switch sections with fall-through;
each section below returns `none` exactly where the Go code falls through to
the next section. -/

/-- Allocate a fresh `*NumberVal` result (`fastNumber`). -/
def allocNum (st : State) (q : GoNum) : Outcome :=
  let (a, st') := st.allocCell q
  .ok (.num a) st'

/-- Section 1: both operands `*NumberVal` (lines 524-558).  `%` first tests
the raw float against `0`; a divisor that only *truncates* to integer zero
reaches the Go integer `%` and panics. -/
def binNumNum (st : State) (la ra : Nat) (op : String) : Option Outcome :=
  let l := st.readCell la
  let r := st.readCell ra
  match op with
  | "+" => some (allocNum st (l.add r))
  | "-" => some (allocNum st (l.sub r))
  | "*" => some (allocNum st (l.mul r))
  | "/" => some (if r.qeq 0 then .err "division by zero" st else allocNum st (l.div r))
  | "%" => some (if r.qeq 0 then .err "modulo by zero" st
                 else if r.trunc == 0 then
                   .goPanic "runtime error: integer divide by zero" st
                 else allocNum st (GoNum.ofInt (l.trunc.tmod r.trunc)))
  | "==" => some (.ok (.bool (l.qeq r)) st)
  | "!=" => some (.ok (.bool (!(l.qeq r))) st)
  | "<" => some (.ok (.bool (l.qlt r)) st)
  | "<=" => some (.ok (.bool (l.qle r)) st)
  | ">" => some (.ok (.bool (r.qlt l)) st)
  | ">=" => some (.ok (.bool (r.qle l)) st)
  | _ => none

/-- Section 2: both operands boolean, logical operators only (lines 560-570).
Both operands were already evaluated: `&&`/`||` do not short-circuit. -/
def binBoolLogic (st : State) (lb rb : Bool) (op : String) : Option Outcome :=
  match op with
  | "&&" => some (.ok (.bool (lb && rb)) st)
  | "||" => some (.ok (.bool (lb || rb)) st)
  | _ => none

/-- Section 3: left operand a string (lines 572-598).  With a string right
operand, unknown operators error here (the inner switch has a default);
with any other right operand only `+` is handled, via the right value's
`String()` method (a nil interface panics). -/
def binLeftStr (st : State) (ls : String) (rv : Value) (op : String) : Option Outcome :=
  match rv with
  | .str rs =>
    match op with
    | "+" => some (.ok (.str (ls ++ rs)) st)
    | "==" => some (.ok (.bool (ls == rs)) st)
    | "!=" => some (.ok (.bool (ls != rs)) st)
    | _ => some (.err ("unknown operator " ++ op ++ " for string operands") st)
  | _ =>
    if op == "+" then
      match rv with
      | .goNil => some (.goPanic
          "runtime error: invalid memory address or nil pointer dereference" st)
      | _ => some (.ok (.str (ls ++ goString st rv)) st)
    else none

/-- Sections 4-5: null comparisons (lines 600-619). -/
def binNull (st : State) (lv rv : Value) (op : String) : Option Outcome :=
  match lv, rv with
  | .null, .null =>
    match op with
    | "==" => some (.ok (.bool true) st)
    | "!=" => some (.ok (.bool false) st)
    | _ => none
  | .null, _ =>
    match op with
    | "==" => some (.ok (.bool false) st)
    | "!=" => some (.ok (.bool true) st)
    | _ => none
  | _, .null =>
    match op with
    | "==" => some (.ok (.bool false) st)
    | "!=" => some (.ok (.bool true) st)
    | _ => none
  | _, _ => none

/-- Section 6: boolean equality (lines 621-631). -/
def binBoolEq (st : State) (lv rv : Value) (op : String) : Option Outcome :=
  match lv, rv with
  | .bool lb, .bool rb =>
    match op with
    | "==" => some (.ok (.bool (lb == rb)) st)
    | "!=" => some (.ok (.bool (lb != rb)) st)
    | _ => none
  | _, _ => none

/-- Sections 7-9: mixed-type equality and the final error (lines 633-641). -/
def binMixed (st : State) (lv rv : Value) (op : String) : Outcome :=
  if op == "==" then .ok (.bool false) st
  else if op == "!=" then .ok (.bool true) st
  else .err ("unknown operator " ++ op ++ " for types " ++ lv.typeName ++
             " and " ++ rv.typeName) st

/-- The operand dispatch of `evalBinaryExpr` after both operands are
evaluated: the fall-through cascade of sections 1-9. -/
def evalBinaryOp (st : State) (lv rv : Value) (op : String) : Outcome :=
  let s1 := match lv, rv with
    | .num la, .num ra => binNumNum st la ra op
    | _, _ => none
  match s1 with
  | some o => o
  | none =>
    let s2 := match lv, rv with
      | .bool lb, .bool rb => binBoolLogic st lb rb op
      | _, _ => none
    match s2 with
    | some o => o
    | none =>
      let s3 := match lv with
        | .str ls => binLeftStr st ls rv op
        | _ => none
      match s3 with
      | some o => o
      | none =>
        match binNull st lv rv op with
        | some o => o
        | none =>
          match binBoolEq st lv rv op with
          | some o => o
          | none => binMixed st lv rv op

/-! ## Non-recursive evaluator pieces -/

/-- `evalMember` (lines 937-948). -/
def evalMember (st : State) (obj : Value) (prop : String) : Outcome :=
  match obj with
  | .map props =>
    match props.lookup prop with
    | some v => .ok v st
    | none => .err ("unknown property " ++ sq ++ prop ++ sq) st
  | _ => .err ("cannot access property " ++ sq ++ prop ++ sq ++ " on " ++
               obj.typeName) st

/-- `evalUnaryExpr` (lines 901-926): only identifiers bound to numbers may
be incremented; the binding is replaced with a freshly allocated number
(`fastNumber(num.Value ± 1)`) through `AssignVar`; prefix returns the new
object, postfix the old one. -/
def evalUnaryExpr (st : State) (operand : Stmt) (operator : String) (pre : Bool)
    (env : Nat) : Outcome :=
  match operand with
  | .identifier x =>
    match LookupVar st env x with
    | none => .goPanic (resolveMsg x) st
    | some cur =>
      match cur with
      | .num a =>
        if operator == "++" then
          let (nc, st1) := st.allocCell ((st.readCell a).add 1)
          match AssignVar st1 env x (.num nc) with
          | .error m => .goPanic m st1
          | .ok st2 => if pre then .ok (.num nc) st2 else .ok (.num a) st2
        else if operator == "--" then
          let (nc, st1) := st.allocCell ((st.readCell a).sub 1)
          match AssignVar st1 env x (.num nc) with
          | .error m => .goPanic m st1
          | .ok st2 => if pre then .ok (.num nc) st2 else .ok (.num a) st2
        else .err "unknown unary operator" st
      | _ => .err "increment/decrement requires numeric variable" st
  | _ => .err "increment/decrement target must be an identifier" st

/-- The parameter-binding loop of the `*UserFunction` call case
(lines 177-181): `DeclareVar(name, args[idx] or Null, false)` for each
parameter in order.  A duplicate parameter name hits the redeclaration
panic. -/
def bindParams (st : State) (envId : Nat) :
    List String → List Value → Except (String × State) State
  | [], _ => .ok st
  | p :: ps, vs =>
    let v := vs.headD Value.null
    match DeclareVar st envId p v false with
    | none => .error (declareMsg p, st)
    | some st' => bindParams st' envId ps vs.tail

/-- The `x = x + i` closed loop of the for-statement fast path
(lines 387-389): `accumNum.Value += float64(i)` for `i ∈ [0, count)`. -/
def addRangeSum (a : GoNum) (count : Int) : GoNum :=
  (List.range count.toNat).foldl (fun acc i => acc.add (GoNum.ofInt i)) a

/-- The `sum = sum + (i % m)` closed loop of the for-statement fast path
(lines 402-404): `accumNum.Value += float64(i % modVal)`. -/
def addModSum (a : GoNum) (count : Int) (modVal : Int) : GoNum :=
  (List.range count.toNat).foldl
    (fun acc i => acc.add (GoNum.ofInt ((i : Int).tmod modVal))) a

/-! ## The evaluator (`Evaluate` and friends, interpreter source)

Every function consumes one unit of fuel on entry and hands the rest to
every callee; `Outcome.timeout` only occurs when the fuel runs out, never on
any Go behaviour. -/

mutual

/-- `Evaluate(stmt, scope)` (lines 138-232): dispatch on the node variant. -/
def Evaluate : Nat → Stmt → Nat → State → Outcome
  | 0, _, _, _ => .timeout
  | Nat.succ f, stmt, env, st =>
    match stmt with
    | .numericLiteral v =>
      let (a, st1) := st.allocCell v
      .ok (.num a) st1
    | .stringLiteral s => .ok (.str s) st
    | .booleanLiteral b => .ok (.bool b) st
    | .arrayLiteral es =>
      match evalExprList f es env st [] with
      | .ok vs st1 => .ok (.arr vs) st1
      | .err m s => .err m s
      | .goPanic m s => .goPanic m s
      | .timeout => .timeout
    | .mapLiteral ps => evalMapProps f ps env st []
    | .binaryExpr l r op => evalBinaryExpr f l r op env st
    | .program body => evalProgram f body env st .goNil
    | .varDeclaration name vExpr c =>
      match Evaluate f vExpr env st with
      | .ok v st1 =>
        match DeclareVar st1 env name v c with
        | none => .goPanic (declareMsg name) st1
        | some st2 => .ok v st2
      | other => other
    | .callExpr callee args =>
      match Evaluate f callee env st with
      | .ok fn st1 =>
        match evalExprList f args env st1 [] with
        | .ok vs st2 =>
          match fn with
          | .userFn params body fenv => callUserFunction f params body fenv vs st2
          | _ => .err ("not a function: " ++ fn.goType) st2
        | .err m s => .err m s
        | .goPanic m s => .goPanic m s
        | .timeout => .timeout
      | other => other
    | .identifier s =>
      match LookupVar st env s with
      | none => .goPanic (resolveMsg s) st
      | some .goNil => .err ("undefined variable: " ++ s) st
      | some v => .ok v st
    | .memberExpr obj prop =>
      match Evaluate f obj env st with
      | .ok ov st1 => evalMember st1 ov prop
      | other => other
    | .blockStatement stmts => evalBlockStatement f stmts env st
    | .ifStatement cond cons alt => evalIfStatement f cond cons alt env st
    | .forStatement sym rng body => evalForStatement f sym rng body env st
    | .whileStatement cond body => evalWhileStatement f cond body env st
    | .assignmentExpr a v => evalAssignmentExpr f a v env st
    | .functionDeclaration name params body =>
      let uf := Value.userFn params body env
      match DeclareVar st env name uf true with
      | none => .goPanic (declareMsg name) st
      | some st1 => .ok uf st1
    | .returnStatement vExpr =>
      match Evaluate f vExpr env st with
      | .ok v st1 => .ok (.ret v) st1
      | other => other
    | .unaryExpr o op pre => evalUnaryExpr st o op pre env
    | .tryStatement t c e => evalTryStatement f t c e env st
    | .breakStatement => .ok .brk st
    | .continueStatement => .ok .cont st
  termination_by structural u _ _ _ => u


/-- The statement loop of `evalProgram` (lines 271-284): errors abort, a
`ReturnVal` unwraps and ends the program, otherwise the last result is
kept (initially the Go `nil`). -/
def evalProgram : Nat → List Stmt → Nat → State → Value → Outcome
  | 0, _, _, _, _ => .timeout
  | Nat.succ f, stmts, env, st, last =>
    match stmts with
    | [] => .ok last st
    | s :: rest =>
      match Evaluate f s env st with
      | .ok (.ret inner) st1 => .ok inner st1
      | .ok v st1 => evalProgram f rest env st1 v
      | other => other
  termination_by structural u _ _ _ _ => u


/-- `evalBlockStatement` (lines 286-339).  A single-statement block takes
the ultra-fast `x = x + e` path (or plain `Evaluate`) in the *enclosing*
scope; an empty block returns Null; only blocks with two or more statements
allocate a child scope. -/
def evalBlockStatement : Nat → List Stmt → Nat → State → Outcome
  | 0, _, _, _ => .timeout
  | Nat.succ f, stmts, env, st =>
    match stmts with
    | [stmt] =>
      match stmt with
      | .assignmentExpr (.identifier x) (.binaryExpr (.identifier lx) rhs "+") =>
        if lx == x then
          match LookupVar st env x with
          | none => .goPanic (resolveMsg x) st
          | some (.num a) =>
            match Evaluate f rhs env st with
            | .ok (.num b) st1 =>
              .ok (.num a) (st1.writeCell a ((st1.readCell a).add (st1.readCell b)))
            | .ok _ st1 => Evaluate f stmt env st1
            | other => other
          | some _ => Evaluate f stmt env st
        else Evaluate f stmt env st
      | _ => Evaluate f stmt env st
    | [] => .ok .null st
    | _ =>
      let (blockScope, st1) := st.allocEnv (some env) [] []
      evalBlockLoop f stmts blockScope st1 .goNil
  termination_by structural u _ _ _ => u


/-- The statement loop of `evalBlockStatement` for multi-statement blocks
(lines 320-338): `Return`/`Break`/`Continue` sentinels end the block and
propagate. -/
def evalBlockLoop : Nat → List Stmt → Nat → State → Value → Outcome
  | 0, _, _, _, _ => .timeout
  | Nat.succ f, stmts, env, st, last =>
    match stmts with
    | [] => .ok last st
    | s :: rest =>
      match Evaluate f s env st with
      | .ok v st1 =>
        match v with
        | .ret _ => .ok v st1
        | .brk => .ok v st1
        | .cont => .ok v st1
        | _ => evalBlockLoop f rest env st1 v
      | other => other
  termination_by structural u _ _ _ _ => u


/-- `evalIfStatement` (lines 341-354): no fresh scope of its own; the block
evaluation decides that. -/
def evalIfStatement : Nat → Stmt → List Stmt → Option (List Stmt) → Nat → State → Outcome
  | 0, _, _, _, _, _ => .timeout
  | Nat.succ f, cond, cons, alt, env, st =>
    match Evaluate f cond env st with
    | .ok cv st1 =>
      if isTruthy st1 cv then evalBlockStatement f cons env st1
      else
        match alt with
        | some b => evalBlockStatement f b env st1
        | none => .ok .goNil st1
    | other => other
  termination_by structural u _ _ _ _ _ => u


/-- `evalForStatement` (lines 356-450).  After evaluating the range
expression: an empty body burns cycles without observable work; a
single-statement `x = x + e` body takes one of three closed-form fast paths
(note: the accumulator is resolved *before* the count is inspected); any
other shape runs the generic per-iteration path. -/
def evalForStatement : Nat → String → Stmt → List Stmt → Nat → State → Outcome
  | 0, _, _, _, _, _ => .timeout
  | Nat.succ f, sym, rng, body, env, st =>
    match Evaluate f rng env st with
    | .ok (.num ra) st1 =>
      let rv := st1.readCell ra
      match body with
      | [] => .ok .null st1
      | [stmt] =>
        match stmt with
        | .assignmentExpr (.identifier x) (.binaryExpr (.identifier lx) rhs "+") =>
          if lx == x then
            match LookupVar st1 env x with
            | none => .goPanic (resolveMsg x) st1
            | some (.num acc) =>
              let count := rv.trunc
              match rhs with
              | .identifier r =>
                if r == sym then
                  .ok (.num acc)
                    (st1.writeCell acc (addRangeSum (st1.readCell acc) count))
                else evalForGeneric f sym [stmt] rv env st1
              | .numericLiteral c =>
                .ok (.num acc)
                  (st1.writeCell acc
                    ((st1.readCell acc).add (c.mul (GoNum.ofInt count))))
              | .binaryExpr (.identifier lm) (.numericLiteral m) "%" =>
                if lm == sym then
                  let modVal := m.trunc
                  if modVal == 0 && 0 < count then
                    .goPanic "runtime error: integer divide by zero" st1
                  else
                    .ok (.num acc)
                      (st1.writeCell acc (addModSum (st1.readCell acc) count modVal))
                else evalForGeneric f sym [stmt] rv env st1
              | _ => evalForGeneric f sym [stmt] rv env st1
            | some _ => evalForGeneric f sym [stmt] rv env st1
          else evalForGeneric f sym [stmt] rv env st1
        | _ => evalForGeneric f sym [stmt] rv env st1
      | _ => evalForGeneric f sym body rv env st1
    | .ok _ st1 => .err "for loop range must be a number" st1
    | other => other
  termination_by structural u _ _ _ _ _ => u


/-- The generic path of `evalForStatement` (lines 418-449): one `forScope`
child environment holding the counter object, then one fresh `iterScope`
per iteration whose `variables` map is written directly with the *shared*
counter `*NumberVal`. -/
def evalForGeneric : Nat → String → List Stmt → GoNum → Nat → State → Outcome
  | 0, _, _, _, _, _ => .timeout
  | Nat.succ f, sym, body, rv, env, st =>
    let (forScope, st1) := st.allocEnv (some env) [] []
    let (cell, st2) := st1.allocCell 0
    match DeclareVar st2 forScope sym (.num cell) false with
    | none => .goPanic (declareMsg sym) st2
    | some st3 => evalForIter f sym cell body rv.trunc 0 forScope st3
  termination_by structural u _ _ _ _ _ => u


/-- The iteration loop of the generic for path (lines 424-444). -/
def evalForIter : Nat → String → Nat → List Stmt → Int → Int → Nat → State → Outcome
  | 0, _, _, _, _, _, _, _ => .timeout
  | Nat.succ f, sym, cell, body, count, i, forScope, st =>
    if i < count then
      let (iterScope, st1) := st.allocEnv (some forScope) [] []
      let st2 := st1.writeCell cell (GoNum.ofInt i)
      let st3 :=
        match st2.envs.get? iterScope with
        | some e => st2.setEnv iterScope { e with vars := mapSet sym (.num cell) e.vars }
        | none => st2
      match evalBlockStatement f body iterScope st3 with
      | .ok .brk st4 => .ok .null st4
      | .ok .cont st4 => evalForIter f sym cell body count (i + 1) forScope st4
      | .ok (.ret v) st4 => .ok (.ret v) st4
      | .ok _ st4 => evalForIter f sym cell body count (i + 1) forScope st4
      | other => other
    else .ok .null st
  termination_by structural u _ _ _ _ _ _ _ => u


/-- `evalWhileStatement` (lines 452-479): condition and body run in the
enclosing scope; `Break` ends the loop, `Continue` re-tests, `Return`
propagates; the loop itself evaluates to the Go `nil`. -/
def evalWhileStatement : Nat → Stmt → List Stmt → Nat → State → Outcome
  | 0, _, _, _, _ => .timeout
  | Nat.succ f, cond, body, env, st =>
    match Evaluate f cond env st with
    | .ok cv st1 =>
      if isTruthy st1 cv then
        match evalBlockStatement f body env st1 with
        | .ok .brk st2 => .ok .goNil st2
        | .ok .cont st2 => evalWhileStatement f cond body env st2
        | .ok (.ret v) st2 => .ok (.ret v) st2
        | .ok _ st2 => evalWhileStatement f cond body env st2
        | other => other
      else .ok .goNil st1
    | other => other
  termination_by structural u _ _ _ _ => u


/-- `evalAssignmentExpr` (lines 234-269).  For an identifier target the
`x = x + literal` and `x = x + y` patterns mutate the current `*NumberVal`
in place without touching `AssignVar` (and hence without any constant
check); everything else evaluates the right-hand side and assigns through
the environment chain. -/
def evalAssignmentExpr : Nat → Stmt → Stmt → Nat → State → Outcome
  | 0, _, _, _, _ => .timeout
  | Nat.succ f, assignee, value, env, st =>
    match assignee with
    | .identifier x =>
      match value with
      | .binaryExpr (.identifier lx) rhs "+" =>
        if lx == x then
          match rhs with
          | .numericLiteral c =>
            match LookupVar st env x with
            | none => .goPanic (resolveMsg x) st
            | some (.num a) => .ok (.num a) (st.writeCell a ((st.readCell a).add c))
            | some _ => evalAssignGeneric f x value env st
          | .identifier y =>
            match LookupVar st env x with
            | none => .goPanic (resolveMsg x) st
            | some (.num a) =>
              match LookupVar st env y with
              | none => .goPanic (resolveMsg y) st
              | some (.num b) =>
                .ok (.num a) (st.writeCell a ((st.readCell a).add (st.readCell b)))
              | some _ => evalAssignGeneric f x value env st
            | some _ => evalAssignGeneric f x value env st
          | _ => evalAssignGeneric f x value env st
        else evalAssignGeneric f x value env st
      | _ => evalAssignGeneric f x value env st
    | _ => .err ("invalid assignment target: " ++ assignee.goType) st
  termination_by structural u _ _ _ _ => u


/-- The generic tail of `evalAssignmentExpr` (lines 262-266): evaluate the
right-hand side, then `AssignVar`. -/
def evalAssignGeneric : Nat → String → Stmt → Nat → State → Outcome
  | 0, _, _, _, _ => .timeout
  | Nat.succ f, x, value, env, st =>
    match Evaluate f value env st with
    | .ok v st1 =>
      match AssignVar st1 env x v with
      | .error m => .goPanic m st1
      | .ok st2 => .ok v st2
    | other => other
  termination_by structural u _ _ _ _ => u


/-- `evalBinaryExpr` (lines 514-641): evaluate left, then right, both
unconditionally; then dispatch on the operand kinds. -/
def evalBinaryExpr : Nat → Stmt → Stmt → String → Nat → State → Outcome
  | 0, _, _, _, _, _ => .timeout
  | Nat.succ f, l, r, op, env, st =>
    match Evaluate f l env st with
    | .ok lv st1 =>
      match Evaluate f r env st1 with
      | .ok rv st2 => evalBinaryOp st2 lv rv op
      | other => other
    | other => other
  termination_by structural u _ _ _ _ _ => u


/-- Left-to-right evaluation of an expression list (the argument loop of
the call case, lines 165-171, and the element loop of `evalArrayLiteral`,
lines 481-491). -/
def evalExprList : Nat → List Stmt → Nat → State → List Value → ListOutcome
  | 0, _, _, _, _ => .timeout
  | Nat.succ f, es, env, st, acc =>
    match es with
    | [] => .ok acc st
    | e :: rest =>
      match Evaluate f e env st with
      | .ok v st1 => evalExprList f rest env st1 (acc ++ [v])
      | .err m s => .err m s
      | .goPanic m s => .goPanic m s
      | .timeout => .timeout
  termination_by structural u _ _ _ _ => u


/-- The property loop of `evalMapLiteral` (lines 493-512): keys must
evaluate to strings; later duplicates overwrite. -/
def evalMapProps : Nat → List (Stmt × Stmt) → Nat → State → List (String × Value) → Outcome
  | 0, _, _, _, _ => .timeout
  | Nat.succ f, ps, env, st, acc =>
    match ps with
    | [] => .ok (.map acc) st
    | (k, v) :: rest =>
      match Evaluate f k env st with
      | .ok kv st1 =>
        match kv with
        | .str ks =>
          match Evaluate f v env st1 with
          | .ok vv st2 => evalMapProps f rest env st2 (mapSet ks vv acc)
          | other => other
        | _ => .err ("map key must be a string, got " ++ kv.goType) st1
      | other => other
  termination_by structural u _ _ _ _ => u


/-- The `*UserFunction` call case of `Evaluate` (lines 175-185): a fresh
environment whose parent is the captured environment, parameters bound in
order (missing arguments padded with Null, extra arguments ignored), the
body evaluated there, and a `ReturnVal` unwrapped at this call. -/
def callUserFunction : Nat → List String → List Stmt → Nat → List Value → State → Outcome
  | 0, _, _, _, _, _ => .timeout
  | Nat.succ f, params, body, fenv, args, st =>
    let (callEnv, st1) := st.allocEnv (some fenv) [] []
    match bindParams st1 callEnv params args with
    | .error (m, sp) => .goPanic m sp
    | .ok st2 =>
      match evalBlockStatement f body callEnv st2 with
      | .ok (.ret v) st3 => .ok v st3
      | other => other
  termination_by structural u _ _ _ _ _ => u


/-- `evalTryStatement` (lines 928-935): only `*Error` results are caught;
Go panics are not. -/
def evalTryStatement : Nat → List Stmt → List Stmt → String → Nat → State → Outcome
  | 0, _, _, _, _, _ => .timeout
  | Nat.succ f, tryB, catchB, errVar, env, st =>
    match evalBlockStatement f tryB env st with
    | .err m st1 =>
      let (catchScope, st2) := st1.allocEnv (some env) [] []
      match DeclareVar st2 catchScope errVar (.str m) false with
      | none => .goPanic (declareMsg errVar) st2
      | some st3 => evalBlockStatement f catchB catchScope st3
    | other => other
  termination_by structural u _ _ _ _ _ => u


end

/-! ## Observers for concrete executions -/

/-- The initial interpreter state: one root environment, no number cells.
(The Go root environment is additionally preloaded with host I/O built-ins,
which are outside the modelled fragment and unused by every program below.) -/
def initState : State := ⟨[⟨none, [], []⟩], []⟩

/-- The numeric value a name denotes in the root environment after a
successful evaluation. -/
def obsNum (o : Outcome) (name : String) : Option GoNum :=
  match o with
  | .ok _ st =>
    match LookupVar st 0 name with
    | some (.num a) => some (st.readCell a)
    | _ => none
  | _ => none

/-- Did evaluation finish without error, panic or fuel exhaustion? -/
def Outcome.isOk : Outcome → Bool
  | .ok _ _ => true
  | _ => false

/-- Did evaluation finish normally with the Null value? -/
def Outcome.isOkNull : Outcome → Bool
  | .ok .null _ => true
  | _ => false

/-- Did evaluation abort with a Go panic carrying this message? -/
def Outcome.isGoPanicWith (m : String) : Outcome → Bool
  | .goPanic m' _ => m' == m
  | _ => false

/-- Did evaluation fail with a (catchable) `*Error` carrying this message? -/
def Outcome.isErrWith (m : String) : Outcome → Bool
  | .err m' _ => m' == m
  | _ => false

/-! ## Claim C1 -/

/-- Claim C1, evidence of the code bug.  The claim (and the specification)
say that assigning to a name that is flagged constant in its defining scope
fails with the constant-reassignment error from any descendant scope,
without mutation.  In the code, `AssignVar` consults only the *current*
environment's `constants` set before resolving the defining scope, so the
program `const z = 30 { z = 1 z = 2 }` — whose two-statement block runs in a
child scope — reassigns the constant without any error: evaluation succeeds
and `z` ends at `2`. -/
theorem c1_constant_reassigned_from_child_scope :
    (Evaluate 50 (.program
      [.varDeclaration "z" (.numericLiteral 30) true,
       .blockStatement
         [.assignmentExpr (.identifier "z") (.numericLiteral 1),
          .assignmentExpr (.identifier "z") (.numericLiteral 2)]]) 0 initState).isOk
      = true
    ∧ obsNum (Evaluate 50 (.program
      [.varDeclaration "z" (.numericLiteral 30) true,
       .blockStatement
         [.assignmentExpr (.identifier "z") (.numericLiteral 1),
          .assignmentExpr (.identifier "z") (.numericLiteral 2)]]) 0 initState) "z"
      = some ⟨2, 1⟩ :=
  ⟨by decide, by decide⟩

/-! ## Claim C2 -/

/-- Claim C2, evidence of the code bug.  The claim says number values are
immutable: after `let x = 5  let y = x`, assigning `x = x + 1` must not
change the value observed through `y`.  The `x = x + literal` fast path of
`evalAssignmentExpr` mutates the shared `*NumberVal` cell in place, so both
`x` and `y` observe `6`. -/
theorem c2_number_cell_mutated_through_alias :
    (Evaluate 50 (.program
      [.varDeclaration "x" (.numericLiteral 5) false,
       .varDeclaration "y" (.identifier "x") false,
       .assignmentExpr (.identifier "x")
         (.binaryExpr (.identifier "x") (.numericLiteral 1) "+")]) 0 initState).isOk
      = true
    ∧ obsNum (Evaluate 50 (.program
      [.varDeclaration "x" (.numericLiteral 5) false,
       .varDeclaration "y" (.identifier "x") false,
       .assignmentExpr (.identifier "x")
         (.binaryExpr (.identifier "x") (.numericLiteral 1) "+")]) 0 initState) "y"
      = some ⟨6, 1⟩ :=
  ⟨by decide, by decide⟩

/-! ## Claim C3 -/

/-- Claim C3, evidence of the code bug.  The claim says `for range(i, N)`
with `N = 0` executes the body zero times for *every* body shape, including
the single-statement `x = x + e` shapes.  The fast path for those shapes
resolves the accumulator `x` *before* inspecting the count, so with `x`
unbound the statement `for range(i, 0) { x = x + 1 }` Go-panics
(`Cannot resolve 'x'...`) — while the generic per-iteration path
(`evalForGeneric`, the code's own zero-iterations semantics at the same
point) completes normally with Null. -/
theorem c3_for_fast_path_resolves_accumulator_before_count :
    (Evaluate 50 (.forStatement "i" (.numericLiteral 0)
      [.assignmentExpr (.identifier "x")
        (.binaryExpr (.identifier "x") (.numericLiteral 1) "+")]) 0
      initState).isGoPanicWith (resolveMsg "x") = true
    ∧ (evalForGeneric 50 "i"
        [.assignmentExpr (.identifier "x")
          (.binaryExpr (.identifier "x") (.numericLiteral 1) "+")] 0 0
        initState).isOkNull = true :=
  ⟨by decide, by decide⟩

/-! ## Claim C5 -/

/-- Claim C5, evidence of the code bug.  The claim (and the specification,
twice) say `Null` is falsy, so an `If` with a Null condition selects the
else branch.  `isTruthy` handles the Go `nil` interface, booleans, numbers
and strings, and lets **`*NullVal` fall through to `true`**; the program
below (`f()` returns Null, the call is the `if` condition) therefore takes
the *then* branch, ending with `r = 1` instead of `r = 2`. -/
theorem c5_null_value_is_truthy :
    isTruthy initState .null = true
    ∧ obsNum (Evaluate 50 (.program
        [.functionDeclaration "f" [] [],
         .varDeclaration "r" (.numericLiteral 0) false,
         .ifStatement (.callExpr (.identifier "f") [])
           [.assignmentExpr (.identifier "r") (.numericLiteral 1)]
           (some [.assignmentExpr (.identifier "r") (.numericLiteral 2)])]) 0
        initState) "r"
      = some ⟨1, 1⟩ :=
  ⟨by decide, by decide⟩

/-! ## Claim C6 -/

/-- Claim C6, counterexample.  The claim says every block — "of any length,
including a single-statement block" — evaluates in a fresh child
environment, so a `let` inside it is not bound in the enclosing scope after
the block exits.  A single-statement block takes the fast path of
`evalBlockStatement` and runs in the *enclosing* scope: after the program
`{ let a = 1 }`, the name `a` is bound (to `1`) in the root environment. -/
theorem c6_single_statement_block_leaks_declaration :
    (Evaluate 50 (.program
      [.blockStatement [.varDeclaration "a" (.numericLiteral 1) false]]) 0
      initState).isOk = true
    ∧ obsNum (Evaluate 50 (.program
        [.blockStatement [.varDeclaration "a" (.numericLiteral 1) false]]) 0
        initState) "a"
      = some ⟨1, 1⟩ :=
  ⟨by decide, by decide⟩

/-! ## Claim C7 -/

/-- Claim C7, evidence of the code bug.  The claim says `a % b` fails with
the "modulo by zero" runtime error (rather than crashing) whenever the
divisor's integer truncation is zero — explicitly including `0 < b < 1`.
The code's guard tests the raw float against `0` only: `1 % (1/2)` passes
the guard, truncates the divisor to `0`, and the Go integer `%` panics;
only a divisor exactly `0` produces the catchable error. -/
theorem c7_fractional_divisor_panics_instead_of_error :
    (Evaluate 20 (.binaryExpr (.numericLiteral 1)
        (.binaryExpr (.numericLiteral 1) (.numericLiteral 2) "/") "%") 0
        initState).isGoPanicWith "runtime error: integer divide by zero" = true
    ∧ (Evaluate 20 (.binaryExpr (.numericLiteral 1) (.numericLiteral 0) "%") 0
        initState).isErrWith "modulo by zero" = true :=
  ⟨by decide, by decide⟩

/-! ## Claim C9 -/

/-- Claim C9, confirmed.  In `evalBinaryExpr` the left operand is evaluated
first (its error preempts everything), the right operand is evaluated in
the left operand's post-state for *every* operator — including `&&` and
`||`, which do not short-circuit — and an error from the right operand is
the result of the whole expression even when the left value alone would
determine it. -/
theorem c9_no_short_circuit_right_error_propagates :
    ∀ (f : Nat) (l r : Stmt) (op : String) (env : Nat) (st : State)
      (m : String) (st' : State),
      (Evaluate f l env st = .err m st' →
        Evaluate (f + 2) (.binaryExpr l r op) env st = .err m st')
      ∧ (∀ (v1 : Value) (st1 : State),
          Evaluate f l env st = .ok v1 st1 →
          Evaluate f r env st1 = .err m st' →
          Evaluate (f + 2) (.binaryExpr l r op) env st = .err m st') := by
  intro f l r op env st m st'
  constructor
  · intro h
    show Evaluate (Nat.succ (Nat.succ f)) (.binaryExpr l r op) env st = .err m st'
    simp only [Evaluate, evalBinaryExpr, h]
  · intro v1 st1 hl hr
    show Evaluate (Nat.succ (Nat.succ f)) (.binaryExpr l r op) env st = .err m st'
    simp only [Evaluate, evalBinaryExpr, hl, hr]

/-- Witness for C9: `true || (1/0)` evaluates its right operand and fails
with "division by zero" although the left operand already determines the
boolean value. -/
theorem c9_witness :
    Evaluate 7 (.binaryExpr (.booleanLiteral true)
        (.binaryExpr (.numericLiteral 1) (.numericLiteral 0) "/") "||") 0 initState
      = .err "division by zero" ⟨[⟨none, [], []⟩], [⟨1, 1⟩, ⟨0, 1⟩]⟩ :=
  (c9_no_short_circuit_right_error_propagates 5 (.booleanLiteral true)
      (.binaryExpr (.numericLiteral 1) (.numericLiteral 0) "/") "||" 0 initState
      "division by zero" ⟨[⟨none, [], []⟩], [⟨1, 1⟩, ⟨0, 1⟩]⟩).2
    (.bool true) initState rfl rfl

/-! ## Claim C8 -/

/-- The association list the parameter-binding loop produces: parameters in
order, each paired with the positional argument, padded with Null when the
arguments run out (extra arguments bind nothing). -/
def zipPad : List String → List Value → List (String × Value)
  | [], _ => []
  | p :: ps, vs => (p, vs.headD .null) :: zipPad ps vs.tail

theorem mapSet_of_lookup_none {β : Type} {k : String} {l : List (String × β)}
    (v : β) (h : l.lookup k = none) : mapSet k v l = l ++ [(k, v)] := by
  induction l with
  | nil => rfl
  | cons hd tl ih =>
    obtain ⟨k', v'⟩ := hd
    simp only [List.lookup] at h
    by_cases hk : k = k'
    · simp [hk] at h
    · have hb : (k == k') = false := beq_eq_false_iff_ne.mpr hk
      have hb2 : (k' == k) = false := beq_eq_false_iff_ne.mpr (Ne.symm hk)
      simp only [hb] at h
      simp only [mapSet, hb2, List.cons_append]
      rw [ih h]
      simp

theorem lookup_append_left {β : Type} {k : String} {l l' : List (String × β)} {v : β}
    (h : l.lookup k = some v) : (l ++ l').lookup k = some v := by
  induction l with
  | nil => simp [List.lookup] at h
  | cons hd tl ih =>
    obtain ⟨k', v'⟩ := hd
    simp only [List.lookup, List.cons_append] at h ⊢
    by_cases hk : k == k'
    · simpa [hk] using h
    · simp only [hk] at h ⊢
      exact ih h

theorem lookup_append_none {β : Type} {k : String} {l l' : List (String × β)}
    (h : l.lookup k = none) : (l ++ l').lookup k = l'.lookup k := by
  induction l with
  | nil => rfl
  | cons hd tl ih =>
    obtain ⟨k', v'⟩ := hd
    simp only [List.lookup, List.cons_append] at h ⊢
    by_cases hk : k == k'
    · simp [hk] at h
    · simp only [hk] at h ⊢
      exact ih h

theorem set_self_of_get? {α : Type} {l : List α} {n : Nat} {a : α}
    (h : l.get? n = some a) : l.set n a = l := by
  induction l generalizing n with
  | nil => simp [List.get?] at h
  | cons hd tl ih =>
    cases n with
    | zero => simp [List.get?] at h; simp [h]
    | succ m =>
      simp only [List.get?] at h
      simp [List.set, ih h]

theorem set_concat_length {α : Type} (l : List α) (a b : α) :
    (l ++ [a]).set l.length b = l ++ [b] := by
  induction l with
  | nil => rfl
  | cons hd tl ih => simp [List.set, ih]


theorem lt_of_get?_some {α : Type} {l : List α} {n : Nat} {a : α}
    (h : l.get? n = some a) : n < l.length := by
  rw [List.get?_eq_getElem?] at h
  exact (List.getElem?_eq_some_iff.mp h).1

theorem bindParams_eq (ps : List String) (vs : List Value) (st : State) (envId : Nat)
    (e : EnvRec) (he : st.envs.get? envId = some e) (hnd : ps.Nodup)
    (hdisj : ∀ p ∈ ps, e.vars.lookup p = none) :
    bindParams st envId ps vs
      = .ok ⟨st.envs.set envId { e with vars := e.vars ++ zipPad ps vs }, st.cells⟩ := by
  induction ps generalizing vs st e with
  | nil =>
    have h1 : ({ e with vars := e.vars ++ zipPad [] vs } : EnvRec) = e := by
      simp [zipPad]
    rw [h1, set_self_of_get? he]
    rfl
  | cons p ps ih =>
    have hlp : e.vars.lookup p = none := hdisj p (by simp)
    have hndtail : ps.Nodup := (List.nodup_cons.mp hnd).2
    have hpnotin : p ∉ ps := (List.nodup_cons.mp hnd).1
    have hlen : envId < st.envs.length := lt_of_get?_some he
    simp only [bindParams, DeclareVar, he, hlp, Option.isSome_none, Bool.false_eq_true,
      if_false, State.setEnv]
    set v := vs.headD Value.null with hv
    set e1 : EnvRec := { e with vars := mapSet p v e.vars, constants := e.constants } with he1
    have hvars1 : e1.vars = e.vars ++ [(p, v)] := by
      simp only [he1]
      exact mapSet_of_lookup_none v hlp
    have hget1 : ({ envs := st.envs.set envId e1, cells := st.cells } : State).envs.get? envId
        = some e1 := List.get?_set_eq_of_lt e1 hlen
    have hdisj1 : ∀ q ∈ ps, e1.vars.lookup q = none := by
      intro q hq
      rw [hvars1, lookup_append_none (hdisj q (by simp [hq]))]
      have hqp : (q == p) = false := beq_eq_false_iff_ne.mpr (by
        intro hqe; exact hpnotin (hqe ▸ hq))
      simp [List.lookup, hqp]
    rw [ih vs.tail _ e1 hget1 hndtail hdisj1]
    simp only [List.set_set]
    have hfin : ({ e1 with vars := e1.vars ++ zipPad ps vs.tail } : EnvRec)
        = { e with vars := e.vars ++ zipPad (p :: ps) vs } := by
      have h2 : mapSet p v e.vars = e.vars ++ [(p, v)] := mapSet_of_lookup_none v hlp
      simp only [he1, h2, List.append_assoc]
      simp only [zipPad, hv]
      rfl
    rw [hfin]

theorem zipPad_lookup (ps : List String) (vs : List Value) (hnd : ps.Nodup)
    (i : Nat) (hi : i < ps.length) :
    (zipPad ps vs).lookup (ps.get ⟨i, hi⟩) = some (vs.getD i .null) := by
  induction ps generalizing vs i with
  | nil => simp at hi
  | cons p ps ih =>
    cases i with
    | zero =>
      cases vs with
      | nil => simp [zipPad, List.lookup]
      | cons v vs => simp [zipPad, List.lookup]
    | succ j =>
      have hj : j < ps.length := by simpa using hi
      have hkey : (p :: ps).get ⟨j + 1, hi⟩ = ps.get ⟨j, hj⟩ := rfl
      have hne : (ps.get ⟨j, hj⟩ == p) = false :=
        beq_eq_false_iff_ne.mpr (by
          intro hqe
          exact (List.nodup_cons.mp hnd).1 (hqe ▸ List.get_mem ps j hj))
      rw [hkey]
      simp only [zipPad, List.lookup, hne]
      rw [ih vs.tail (List.nodup_cons.mp hnd).2 j hj]
      cases vs <;> rfl

/-- Claim C8, confirmed.  Calling a user-defined function with parameters
`params` and (already evaluated) arguments `args` allocates exactly one new
environment whose parent pointer is the function's captured environment
`fenv`, binds the i-th parameter to the i-th argument — to Null when the
arguments run out, with extra arguments ignored (`zipPad`) — evaluates the
body in that environment, and unwraps a `ReturnVal` produced by the body
into the call's result.  (The `params.Nodup` hypothesis rules out duplicate
parameter names, on which `DeclareVar` would panic.) -/
theorem c8_user_function_call_semantics :
    ∀ (f : Nat) (params : List String) (body : List Stmt) (fenv : Nat)
      (args : List Value) (st : State),
      params.Nodup →
      (∀ (i : Nat) (hi : i < params.length),
          LookupVar ⟨st.envs ++ [⟨some fenv, zipPad params args, []⟩], st.cells⟩
            st.envs.length (params.get ⟨i, hi⟩) = some (args.getD i .null))
      ∧ callUserFunction (f + 1) params body fenv args st
          = (match evalBlockStatement f body st.envs.length
                ⟨st.envs ++ [⟨some fenv, zipPad params args, []⟩], st.cells⟩ with
             | .ok (.ret v) st3 => .ok v st3
             | o => o) := by
  intro f params body fenv args st hnd
  have hrec : (st.envs ++ [(⟨some fenv, [], []⟩ : EnvRec)]).get? st.envs.length
      = some ⟨some fenv, [], []⟩ := List.get?_concat_length _ _
  constructor
  · intro i hi
    have hlk := zipPad_lookup params args hnd i hi
    have hget : (st.envs ++ [(⟨some fenv, zipPad params args, []⟩ : EnvRec)]).get? st.envs.length
        = some ⟨some fenv, zipPad params args, []⟩ := List.get?_concat_length _ _
    show LookupVar _ _ _ = _
    unfold LookupVar Resolve
    show (do
      let target ← ResolveAux (st.envs.length + 1) _ st.envs.length _
      let e ← (_ : State).envs.get? target
      e.vars.lookup _) = _
    rw [show st.envs.length + 1 = Nat.succ st.envs.length from rfl]
    unfold ResolveAux
    simp only [hget, hlk, Option.isSome_some, if_true, Option.some_bind]
    simpa using hlk
  · show callUserFunction (Nat.succ f) params body fenv args st = _
    unfold callUserFunction
    simp only [State.allocEnv]
    rw [bindParams_eq params args _ st.envs.length ⟨some fenv, [], []⟩ hrec hnd
      (fun q _ => rfl)]
    rw [show ((st.envs ++ [(⟨some fenv, [], []⟩ : EnvRec)]).set st.envs.length
        { parent := some fenv, vars := [] ++ zipPad params args, constants := [] })
        = st.envs ++ [⟨some fenv, zipPad params args, []⟩] from by
      simpa using set_concat_length st.envs _ _]


/-- Witness for C8: a two-parameter function called with one argument binds
the second parameter to Null, and the call equation holds at this instance. -/
theorem c8_witness :
    LookupVar ⟨initState.envs ++ [⟨some 0, zipPad ["a", "b"] [.str "s"], []⟩], []⟩ 1 "b"
      = some Value.null
    ∧ callUserFunction 4 ["a", "b"] [] 0 [.str "s"] initState
        = (match evalBlockStatement 3 [] 1
              ⟨initState.envs ++ [⟨some 0, zipPad ["a", "b"] [.str "s"], []⟩], []⟩ with
           | .ok (.ret v) st3 => .ok v st3
           | o => o) :=
  ⟨(c8_user_function_call_semantics 3 ["a", "b"] [] 0 [.str "s"] initState
      (by decide)).1 1 (by decide),
   (c8_user_function_call_semantics 3 ["a", "b"] [] 0 [.str "s"] initState
      (by decide)).2⟩

/-- Claim C6, the amended statement proved.  Scoping of blocks as the code
implements it: (1) a single-statement block runs its statement with the
*enclosing* environment; (2) in particular a `let` in a single-statement
block (with a fresh name) writes the binding into the enclosing
environment's own record, allocating the number cell there; (3) an empty
block returns Null without entering a scope; (4) only a block of two or
more statements allocates a fresh child environment (parented at the
enclosing one) and runs its statements there. -/
theorem c6_amended_block_scoping :
    (∀ (f : Nat) (name : String) (vExpr : Stmt) (c : Bool) (env : Nat) (st : State),
        evalBlockStatement (f + 1) [.varDeclaration name vExpr c] env st
          = Evaluate f (.varDeclaration name vExpr c) env st)
    ∧ (∀ (f : Nat) (name : String) (q : GoNum) (env : Nat) (st : State) (e : EnvRec),
        st.envs.get? env = some e → e.vars.lookup name = none →
        evalBlockStatement (f + 3) [.varDeclaration name (.numericLiteral q) false] env st
          = .ok (.num st.cells.length)
              ⟨st.envs.set env { e with vars := mapSet name (.num st.cells.length) e.vars },
               st.cells ++ [q]⟩)
    ∧ (∀ (f : Nat) (env : Nat) (st : State),
        evalBlockStatement (f + 1) [] env st = .ok .null st)
    ∧ (∀ (f : Nat) (s1 s2 : Stmt) (rest : List Stmt) (env : Nat) (st : State),
        evalBlockStatement (f + 1) (s1 :: s2 :: rest) env st
          = evalBlockLoop f (s1 :: s2 :: rest) st.envs.length
              ⟨st.envs ++ [⟨some env, [], []⟩], st.cells⟩ .goNil) := by
  refine ⟨fun f name vExpr c env st => rfl, ?_, fun f env st => rfl,
    fun f s1 s2 rest env st => rfl⟩
  intro f name q env st e he hlk
  show evalBlockStatement (Nat.succ (Nat.succ (Nat.succ f)))
    [.varDeclaration name (.numericLiteral q) false] env st = _
  simp only [evalBlockStatement, Evaluate, State.allocCell, DeclareVar, he, hlk,
    Option.isSome_none, Bool.false_eq_true, if_false, State.setEnv]

/-- Witness for C6's amended theorem: declaring `a = 1` in a singleton
block at the root scope binds `a` in the root environment itself. -/
theorem c6_amended_block_scoping_witness :
    evalBlockStatement 9 [.varDeclaration "a" (.numericLiteral 1) false] 0 initState
      = .ok (.num 0) ⟨[⟨none, [("a", .num 0)], []⟩], [1]⟩ :=
  c6_amended_block_scoping.2.1 6 "a" 1 0 initState ⟨none, [], []⟩ rfl rfl

/-! ## `Pretty` (from `runtime/outputingpritier.go`)

`sort.Strings` sorts byte-wise lexicographically; on the UTF-8 model this
is code-point-wise lexicographic order, defined below on character lists.
`strings.Join(parts, ", ")` is `joinSep ", "`. -/

/-- Byte-wise `<` of Go strings, on the character-list model. -/
def goStrLtChars : List Char → List Char → Bool
  | [], [] => false
  | [], _ :: _ => true
  | _ :: _, [] => false
  | a :: as, b :: bs =>
    if a.toNat < b.toNat then true
    else if b.toNat < a.toNat then false
    else goStrLtChars as bs

/-- Go `a < b` on strings. -/
def goStrLt (a b : String) : Bool := goStrLtChars a.data b.data

/-- Go `a <= b` on strings (the order `sort.Strings` sorts by). -/
def goStrLe (a b : String) : Bool := !(goStrLt b a)

/-- `goStrLe` as a relation. -/
def GoLe (a b : String) : Prop := goStrLe a b = true

instance : DecidableRel GoLe := fun a b => inferInstanceAs (Decidable (_ = true))

theorem goStrLtChars_asymm : ∀ as bs, goStrLtChars as bs = true → goStrLtChars bs as = false := by
  intro as
  induction as with
  | nil => intro bs h; cases bs with
    | nil => simp [goStrLtChars] at h
    | cons b bs => simp [goStrLtChars]
  | cons a as ih =>
    intro bs h
    cases bs with
    | nil => simp [goStrLtChars] at h
    | cons b bs =>
      simp only [goStrLtChars] at h ⊢
      by_cases h1 : a.toNat < b.toNat
      · simp [h1, Nat.lt_asymm h1]
      · by_cases h2 : b.toNat < a.toNat
        · simp [h1, h2] at h
        · simp only [h1, h2, if_false] at h ⊢
          exact ih bs h

theorem goStrLtChars_antisymm : ∀ as bs, goStrLtChars as bs = false →
    goStrLtChars bs as = false → as = bs := by
  intro as
  induction as with
  | nil => intro bs h1 h2; cases bs with
    | nil => rfl
    | cons b bs => simp [goStrLtChars] at h1
  | cons a as ih =>
    intro bs h1 h2
    cases bs with
    | nil => simp [goStrLtChars] at h2
    | cons b bs =>
      simp only [goStrLtChars] at h1 h2
      by_cases hab : a.toNat < b.toNat
      · simp [hab] at h1
      · by_cases hba : b.toNat < a.toNat
        · simp [hba, hab] at h2
        · have hn : a.toNat = b.toNat :=
            Nat.le_antisymm (Nat.not_lt.mp hba) (Nat.not_lt.mp hab)
          have hc : a = b := Char.ext (UInt32.ext hn)
          simp only [hab, hba, if_false] at h1 h2
          rw [hc, ih bs h1 h2]

theorem goStrLtChars_trans_neg : ∀ as bs cs, goStrLtChars bs as = false →
    goStrLtChars cs bs = false → goStrLtChars cs as = false := by
  intro as
  induction as with
  | nil =>
    intro bs cs h1 h2
    cases cs with
    | nil => rfl
    | cons c cs => rfl
  | cons a as ih =>
    intro bs cs h1 h2
    cases bs with
    | nil => simp [goStrLtChars] at h1
    | cons b bs =>
      cases cs with
      | nil => simp [goStrLtChars] at h2
      | cons c cs =>
        simp only [goStrLtChars] at h1 h2 ⊢
        by_cases hba : b.toNat < a.toNat
        · simp [hba] at h1
        · by_cases hcb : c.toNat < b.toNat
          · simp [hcb] at h2
          · simp only [hba, if_false] at h1
            simp only [hcb, if_false] at h2
            have hca : ¬ c.toNat < a.toNat := by omega
            simp only [hca, if_false]
            by_cases hac : a.toNat < c.toNat
            · simp [hac]
            · have hab : ¬ a.toNat < b.toNat := by omega
              have hbc : ¬ b.toNat < c.toNat := by omega
              simp only [hab, if_false] at h1
              simp only [hbc, if_false] at h2
              simp only [hac, if_false]
              exact ih bs cs h1 h2

instance : IsTrans String GoLe where
  trans := by
    intro a b c h1 h2
    simp only [GoLe, goStrLe, goStrLt, Bool.not_eq_true'] at h1 h2 ⊢
    exact goStrLtChars_trans_neg a.data b.data c.data h1 h2

instance : IsTotal String GoLe where
  total := by
    intro a b
    simp only [GoLe, goStrLe, goStrLt, Bool.not_eq_true']
    by_cases h : goStrLtChars b.data a.data = true
    · right
      exact goStrLtChars_asymm _ _ h
    · left
      exact Bool.not_eq_true _ ▸ eq_false_of_ne_true h

instance : IsAntisymm String GoLe where
  antisymm := by
    intro a b h1 h2
    simp only [GoLe, goStrLe, goStrLt, Bool.not_eq_true'] at h1 h2
    exact String.ext (goStrLtChars_antisymm a.data b.data h2 h1)

/-- `strings.Join(parts, sep)`. -/
def joinSep (sep : String) : List String → String
  | [] => ""
  | [s] => s
  | s :: rest => s ++ sep ++ joinSep sep rest

theorem mem_of_lookup {β : Type} {k : String} {l : List (String × β)} {v : β}
    (h : l.lookup k = some v) : (k, v) ∈ l := by
  induction l with
  | nil => simp [List.lookup] at h
  | cons hd tl ih =>
    obtain ⟨k', v'⟩ := hd
    simp only [List.lookup] at h
    by_cases hk : (k == k') = true
    · have he : k = k' := beq_iff_eq.mp hk
      simp only [hk] at h
      obtain rfl := (Option.some_inj.mp h)
      simp [he]
    · simp only [Bool.not_eq_true] at hk
      simp only [hk] at h
      exact List.mem_cons_of_mem _ (ih h)

theorem sizeOf_lookup_lt {props : List (String × Value)} {k : String} {v : Value}
    (h : props.lookup k = some v) : sizeOf v < 1 + sizeOf props := by
  have hm := List.sizeOf_lt_of_mem (mem_of_lookup h)
  simp only [Prod.mk.sizeOf_spec] at hm
  omega

/-- `Pretty` (`runtime/outputingpritier.go`, lines 10-43): the single-line
rendering.  The Go `nil` interface prints "null"; numbers, quoted strings
and booleans print their scalar forms; arrays render elements recursively;
maps collect their keys, sort them (`sort.Strings`) and render
`"key": value` pairs in that order; every other value (including `*NullVal`)
falls through to its `String()` method. -/
def Pretty (st : State) : Value → String
  | .goNil => "null"
  | .num a => (st.readCell a).render
  | .str s => "\"" ++ s ++ "\""
  | .bool b => if b then "true" else "false"
  | .arr es => "[" ++ joinSep ", " (es.attach.map (fun x => Pretty st x.1)) ++ "]"
  | .map props =>
    "\x7b" ++ joinSep ", " ((List.insertionSort GoLe (props.map Prod.fst)).map (fun k =>
      "\"" ++ k ++ "\": " ++
        match h : props.lookup k with
        | some v => Pretty st v
        | none => "")) ++ "\x7d"
  | v => goString st v
  termination_by v => sizeOf v
  decreasing_by
  · have := List.sizeOf_lt_of_mem x.2
    simp only [Value.arr.sizeOf_spec]
    omega
  · have := sizeOf_lookup_lt h
    simp only [Value.map.sizeOf_spec]
    omega

/-! ## Newline-freeness ("single-line") infrastructure for C10 -/

/-- "Single line": the string contains no newline character. -/
def noNL (s : String) : Bool := s.data.all (fun c => c.toNat != 10)

theorem toNat_ofNat_small (n : Nat) (h : n < 55296) : (Char.ofNat n).toNat = n := by
  unfold Char.ofNat
  split
  · simp [Char.toNat, Char.ofNatAux, UInt32.toNat, BitVec.toNat_ofNatLt]
  · next hh =>
    exfalso
    rw [Nat.isValidChar] at hh
    omega

theorem noNL_append (a b : String) : noNL (a ++ b) = (noNL a && noNL b) := by
  simp [noNL, String.data_append, List.all_append]

theorem noNL_natDigitsAux (fl n : Nat) :
    (natDigitsAux fl n).all (fun c => c.toNat != 10) = true := by
  induction fl generalizing n with
  | zero => rfl
  | succ fl ih =>
    by_cases h : n < 10
    · simp only [natDigitsAux, h, if_true, List.all_cons, List.all_nil, Bool.and_true]
      rw [toNat_ofNat_small (48 + n) (by omega)]
      simp
      omega
    · simp only [natDigitsAux, h, if_false, List.all_append, ih]
      simp only [List.all_cons, List.all_nil, Bool.and_true, Bool.true_and]
      rw [toNat_ofNat_small (48 + n % 10) (by omega)]
      simp
      omega

theorem noNL_natToDecimal (n : Nat) : noNL (natToDecimal n) = true :=
  noNL_natDigitsAux (n + 1) n

theorem noNL_intToDecimal (n : Int) : noNL (intToDecimal n) = true := by
  cases n with
  | ofNat m => exact noNL_natToDecimal m
  | negSucc m =>
    simp only [intToDecimal, noNL_append, noNL_natToDecimal, Bool.and_true]
    rfl

theorem noNL_render (q : GoNum) : noNL q.render = true := by
  unfold GoNum.render
  by_cases h : q.qeq (GoNum.ofInt q.trunc) = true
  · simp only [h, if_true]
    exact noNL_intToDecimal _
  · simp only [h, if_false]
    rw [if_neg (by simp : ¬(false = true))]
    rw [noNL_append, noNL_append]
    rw [noNL_intToDecimal, noNL_intToDecimal]
    decide

/-- Every string occurring inside the value (string payloads and map keys)
is newline-free. -/
def Value.strsNoNL : Value → Bool
  | .str s => noNL s
  | .arr es => es.attach.all (fun x => x.1.strsNoNL)
  | .map props => props.attach.all (fun x => noNL x.1.1 && x.1.2.strsNoNL)
  | .ret v => v.strsNoNL
  | _ => true
  termination_by v => sizeOf v
  decreasing_by
  · have := List.sizeOf_lt_of_mem x.2
    simp only [Value.arr.sizeOf_spec]
    omega
  · have := List.sizeOf_lt_of_mem x.2
    obtain ⟨⟨k, v⟩, hm⟩ := x
    simp only [Prod.mk.sizeOf_spec] at this
    simp only [Value.map.sizeOf_spec]
    omega
  · simp only [Value.ret.sizeOf_spec]
    omega

theorem lookup_eq_none_iff {β : Type} {k : String} {l : List (String × β)} :
    l.lookup k = none ↔ k ∉ l.map Prod.fst := by
  induction l with
  | nil => simp [List.lookup]
  | cons hd tl ih =>
    obtain ⟨k', v'⟩ := hd
    simp only [List.lookup, List.map_cons, List.mem_cons]
    by_cases hk : (k == k') = true
    · have he : k = k' := beq_iff_eq.mp hk
      simp [hk, he]
    · simp only [Bool.not_eq_true] at hk
      simp only [hk]
      rw [ih]
      constructor
      · intro hn hc
        rcases hc with hc | hc
        · exact absurd (beq_iff_eq.mpr hc) (by simp [hk])
        · exact hn hc
      · intro hn
        exact fun hc => hn (Or.inr hc)

theorem lookup_of_mem_nodup {β : Type} {k : String} {v : β} {l : List (String × β)}
    (hnd : (l.map Prod.fst).Nodup) (hm : (k, v) ∈ l) : l.lookup k = some v := by
  induction l with
  | nil => simp at hm
  | cons hd tl ih =>
    obtain ⟨k', v'⟩ := hd
    simp only [List.map_cons, List.nodup_cons] at hnd
    rcases List.mem_cons.mp hm with he | hm'
    · obtain ⟨rfl, rfl⟩ := Prod.mk.injEq .. ▸ he
      injection he with h1 h2
      simp [List.lookup]
    · have hne : (k == k') = false := by
        refine beq_eq_false_iff_ne.mpr ?_
        intro hc
        exact hnd.1 (hc ▸ (List.mem_map_of_mem Prod.fst hm'))
      simp only [List.lookup, hne]
      exact ih hnd.2 hm'

theorem lookup_perm {β : Type} {p q : List (String × β)} (hperm : p.Perm q)
    (hnd : (p.map Prod.fst).Nodup) (k : String) : p.lookup k = q.lookup k := by
  have hndq : (q.map Prod.fst).Nodup := ((hperm.map Prod.fst).nodup_iff).mp hnd
  cases hl : p.lookup k with
  | some v =>
    exact (lookup_of_mem_nodup hndq (hperm.mem_iff.mp (mem_of_lookup hl))).symm
  | none =>
    have hk : k ∉ p.map Prod.fst := lookup_eq_none_iff.mp hl
    have hk2 : k ∉ q.map Prod.fst := fun hc => hk ((hperm.map Prod.fst).mem_iff.mpr hc)
    exact (lookup_eq_none_iff.mpr hk2).symm

/-- Unfolding of `Pretty` on a map: keys sorted, then `"key": value` pairs
joined on one line. -/
theorem Pretty_map (st : State) (props : List (String × Value)) :
    Pretty st (.map props)
      = "\x7b" ++ joinSep ", " ((List.insertionSort GoLe (props.map Prod.fst)).map (fun k =>
          "\"" ++ k ++ "\": " ++
            (match props.lookup k with
             | some v => Pretty st v
             | none => ""))) ++ "\x7d" := by
  rw [Pretty]
  congr 2
  apply congrArg
  apply List.map_congr_left
  intro k hk
  congr 1
  cases h : props.lookup k <;> simp [h]

/-- Unfolding of `Pretty` on a string: the value is quoted. -/
theorem Pretty_str (st : State) (s : String) :
    Pretty st (.str s) = "\"" ++ s ++ "\"" := by
  rw [Pretty]

theorem noNL_joinSep (parts : List String) (h : ∀ s ∈ parts, noNL s = true) :
    noNL (joinSep ", " parts) = true := by
  induction parts with
  | nil => decide
  | cons s rest ih =>
    cases rest with
    | nil => exact h s (by simp)
    | cons t rest2 =>
      simp only [joinSep]
      rw [noNL_append, noNL_append, h s (by simp),
        ih (fun x hx => h x (by simp [hx]))]
      decide

theorem noNL_goString (st : State) :
    ∀ v : Value, v.strsNoNL = true → noNL (goString st v) = true
  | .num _, _ => noNL_render _
  | .str s, hv => by simpa [Value.strsNoNL] using hv
  | .bool b, _ => by cases b <;> (rw [goString]; decide)
  | .null, _ => by rw [goString]; decide
  | .goNil, _ => by rw [goString]; decide
  | .arr _, _ => by rw [goString]; decide
  | .map _, _ => by rw [goString]; decide
  | .userFn _ _ _, _ => by rw [goString]; decide
  | .ret v, hv => by
      rw [Value.strsNoNL] at hv
      have hrec := noNL_goString st v hv
      simpa [goString] using hrec
  | .brk, _ => by rw [goString]; decide
  | .cont, _ => by rw [goString]; decide

theorem noNL_pretty (st : State) :
    ∀ v : Value, v.strsNoNL = true → noNL (Pretty st v) = true := by
  intro v
  induction v using Pretty.induct st with
  | case1 => intro _; rw [Pretty]; decide
  | case2 a => intro _; rw [Pretty]; exact noNL_render _
  | case3 s =>
    intro hv
    rw [Value.strsNoNL] at hv
    rw [Pretty_str, noNL_append, noNL_append, hv]
    decide
  | case4 => intro _; rw [Pretty]; decide
  | case5 b hb =>
    intro _
    have hb2 : b = false := by
      cases b
      · rfl
      · exact absurd rfl hb
    subst hb2
    rw [Pretty]
    decide
  | case6 es ih =>
    intro hv
    rw [Value.strsNoNL] at hv
    rw [Pretty, noNL_append, noNL_append]
    have hj : noNL (joinSep ", " (es.attach.map (fun x => Pretty st x.1))) = true := by
      apply noNL_joinSep
      intro s hs
      obtain ⟨x, hxm, rfl⟩ := List.mem_map.mp hs
      exact ih x (by
        have := List.all_eq_true.mp hv x hxm
        simpa using this)
    rw [hj]
    decide
  | case7 props ih =>
    intro hv
    rw [Value.strsNoNL] at hv
    rw [Pretty_map, noNL_append, noNL_append]
    have hj : noNL (joinSep ", "
        ((List.insertionSort GoLe (props.map Prod.fst)).map (fun k =>
          "\"" ++ k ++ "\": " ++
            (match props.lookup k with
             | some v => Pretty st v
             | none => "")))) = true := by
      apply noNL_joinSep
      intro s hs
      obtain ⟨k, hkm, rfl⟩ := List.mem_map.mp hs
      have hkm2 : k ∈ props.map Prod.fst := (List.perm_insertionSort GoLe _).mem_iff.mp hkm
      cases hl : props.lookup k with
      | none => exact absurd hkm2 (lookup_eq_none_iff.mp hl)
      | some v =>
        have hmem : (k, v) ∈ props := mem_of_lookup hl
        have hall := List.all_eq_true.mp hv ⟨(k, v), hmem⟩ (List.mem_attach _ _)
        have hknl : noNL k = true := by
          have := (Bool.and_eq_true _ _).mp (by simpa using hall)
          exact this.1
        have hvnl : Value.strsNoNL v = true := by
          have := (Bool.and_eq_true _ _).mp (by simpa using hall)
          exact this.2
        simp only [hl]
        rw [noNL_append, noNL_append, noNL_append, hknl, ih k v hl hvnl]
        decide
    rw [hj]
    decide
  | case8 v h1 h2 h3 h4 h5 h6 =>
    intro hv
    match v, hv with
    | .null, _ =>
      rw [Pretty.eq_def]
      exact noNL_goString st .null (by rw [Value.strsNoNL] <;> (intro _ h; exact Value.noConfusion h))
    | .goNil, _ => exact (h1 rfl).elim
    | .userFn params body envId, _ =>
      rw [Pretty.eq_def]
      exact noNL_goString st (.userFn params body envId) (by rw [Value.strsNoNL] <;> (intro _ h; exact Value.noConfusion h))
    | .ret w, hv =>
      rw [Pretty.eq_def]
      exact noNL_goString st (.ret w) hv
    | .brk, _ =>
      rw [Pretty.eq_def]
      exact noNL_goString st .brk (by rw [Value.strsNoNL] <;> (intro _ h; exact Value.noConfusion h))
    | .cont, _ =>
      rw [Pretty.eq_def]
      exact noNL_goString st .cont (by rw [Value.strsNoNL] <;> (intro _ h; exact Value.noConfusion h))
    | .num a, _ => exact (h2 a rfl).elim
    | .str s, _ => exact (h3 s rfl).elim
    | .bool b, _ => exact (h4 b rfl).elim
    | .arr es, _ => exact (h5 es rfl).elim
    | .map props, _ => exact (h6 props rfl).elim

/-! ## C10: pretty-printing of maps -/

/-- C10 counterexample: on the one-entry map whose value is the string "x\ny",
`Pretty` embeds the raw newline of the payload in its output, so the result is
not a single-line string; the claim as stated ("pretty(m) returns a single-line
string" for every map) fails. -/
theorem c10_pretty_map_not_single_line :
    Pretty initState (.map [("a", .str "x\ny")]) = "\x7b\"a\": \"x\ny\"\x7d"
      ∧ noNL (Pretty initState (.map [("a", .str "x\ny")])) = false := by
  have h : Pretty initState (.map [("a", .str "x\ny")]) = "\x7b\"a\": \"x\ny\"\x7d" := by
    rw [Pretty_map]
    simp only [List.map_cons, List.map_nil, List.insertionSort, List.orderedInsert,
      List.lookup, joinSep, Pretty_str]
    simp only [show ("a" == "a") = true from rfl, cond_true, Pretty_str]
    decide
  exact ⟨h, by rw [h]; decide⟩

/-- C10 amended: `Pretty` on a map is insertion-order independent (any
permutation of an entry list with duplicate-free keys pretty-prints
identically); its output lists the keys in Go `sort.Strings` order (sorted,
and a permutation of the original keys) with each value rendered after its
quoted key; string values are quoted; and the output is a single line
whenever every string payload and key inside the value is newline-free. -/
theorem c10_amended_pretty_map :
    (∀ (st : State) (p q : List (String × Value)), p.Perm q →
        (p.map Prod.fst).Nodup → Pretty st (.map p) = Pretty st (.map q))
    ∧ (∀ (st : State) (props : List (String × Value)),
        List.Sorted GoLe (List.insertionSort GoLe (props.map Prod.fst))
        ∧ (List.insertionSort GoLe (props.map Prod.fst)).Perm (props.map Prod.fst)
        ∧ Pretty st (.map props)
            = "\x7b" ++ joinSep ", "
                ((List.insertionSort GoLe (props.map Prod.fst)).map (fun k =>
                  "\"" ++ k ++ "\": " ++
                    (match props.lookup k with
                     | some v => Pretty st v
                     | none => ""))) ++ "\x7d")
    ∧ (∀ (st : State) (s : String), Pretty st (.str s) = "\"" ++ s ++ "\"")
    ∧ (∀ (st : State) (v : Value), v.strsNoNL = true → noNL (Pretty st v) = true) := by
  refine ⟨?_, ?_, Pretty_str, noNL_pretty⟩
  · intro st p q hperm hnd
    rw [Pretty_map, Pretty_map]
    have hkeys : List.insertionSort GoLe (p.map Prod.fst)
        = List.insertionSort GoLe (q.map Prod.fst) := by
      refine List.eq_of_perm_of_sorted ?_
        (List.sorted_insertionSort GoLe _) (List.sorted_insertionSort GoLe _)
      exact (List.perm_insertionSort GoLe _).trans
        ((hperm.map Prod.fst).trans (List.perm_insertionSort GoLe _).symm)
    rw [hkeys]
    congr 2
    apply congrArg
    apply List.map_congr_left
    intro k hk
    congr 1
    simp only [lookup_perm hperm hnd k]
  · intro st props
    exact ⟨List.sorted_insertionSort GoLe _, List.perm_insertionSort GoLe _,
      Pretty_map st props⟩

/-- Witness for the amended C10 theorem, at the two-entry map inserted in the
orders [b, a] and [a, b] and at the newline-free value true. -/
theorem c10_amended_pretty_map_witness :
    Pretty initState (.map [("b", .str "y"), ("a", .str "x")])
      = Pretty initState (.map [("a", .str "x"), ("b", .str "y")])
    ∧ noNL (Pretty initState (.bool true)) = true :=
  ⟨c10_amended_pretty_map.1 initState _ _
      (List.Perm.swap ("a", Value.str "x") ("b", Value.str "y") [])
      (by decide),
   c10_amended_pretty_map.2.2.2 initState (.bool true)
      (by rw [Value.strsNoNL] <;> (intro _ h; exact Value.noConfusion h))⟩

/-! ## C4: the bytecode compiler (src/unnamed/part_005), `Chunk`
(runtime/bytecode.go), the `optimize` peephole pass, and the VM
(runtime/vm.go) -/

/-- Opcode numbering of the `OpCode` enum in `runtime/bytecode.go`
(`iota` from `OP_CONST = 0`).  The math opcodes `OP_POW`..`OP_CEIL` are
referenced by the compiler and the VM dispatch but their declaration is not
among the provided sources; they are numbered here continuing the enum in
the order of the VM dispatch.  No theorem below depends on their values. -/
def OP_CONST : Int := 0
def OP_LOAD_GLOBAL : Int := 1
def OP_STORE_GLOBAL : Int := 2
def OP_LOAD_LOCAL : Int := 3
def OP_STORE_LOCAL : Int := 4
def OP_ADD : Int := 5
def OP_SUB : Int := 6
def OP_MUL : Int := 7
def OP_DIV : Int := 8
def OP_CMP_EQ : Int := 9
def OP_CMP_NE : Int := 10
def OP_CMP_LT : Int := 11
def OP_CMP_LE : Int := 12
def OP_CMP_GT : Int := 13
def OP_CMP_GE : Int := 14
def OP_JUMP : Int := 15
def OP_JUMP_IF_FALSE : Int := 16
def OP_CALL : Int := 17
def OP_RET : Int := 18
def OP_POP : Int := 19
def OP_GET_PROP : Int := 20
def OP_IMPORT : Int := 21
def OP_INCREMENT_LOCAL : Int := 22
def OP_DECREMENT_LOCAL : Int := 23
def OP_ADD_CONST : Int := 24
def OP_LOAD_CONST_0 : Int := 25
def OP_LOAD_CONST_1 : Int := 26
def OP_LOAD_TRUE : Int := 27
def OP_LOAD_FALSE : Int := 28
def OP_LOAD_NULL : Int := 29
def OP_DUP : Int := 30
def OP_SWAP : Int := 31
def OP_CONCAT_2 : Int := 32
def OP_CONCAT_N : Int := 33
def OP_MAKE_ARRAY : Int := 34
def OP_MAKE_MAP : Int := 35
def OP_GET_INDEX : Int := 36
def OP_SET_INDEX : Int := 37
def OP_FOR_LOOP_START : Int := 38
def OP_FOR_LOOP_NEXT : Int := 39
def OP_NOT : Int := 40
def OP_AND : Int := 41
def OP_OR : Int := 42
def OP_POW : Int := 43
def OP_SQRT : Int := 44
def OP_SIN : Int := 45
def OP_COS : Int := 46
def OP_LOG : Int := 47
def OP_EXP : Int := 48
def OP_ABS : Int := 49
def OP_FLOOR : Int := 50
def OP_CEIL : Int := 51

/-- `RuntimeVal` as the VM manipulates it: constant-pool entries and stack
values.  `fn` is a `*VMFunction` with its chunk's code and pool inlined;
`builtin` is a host Go `Function` closure, identified by a tag that the
run's builtin oracle resolves; `goNil` is a nil interface entry (the
pre-allocated stack is full of them).  The VM allocates a fresh `&NumberVal`
for every write, so numbers are immediate here. -/
inductive VMVal where
  | num (q : GoNum)
  | str (s : String)
  | bool (b : Bool)
  | nullv
  | goNil
  | fn (name : String) (arity : Nat) (code : List Int) (consts : List VMVal)
      (localsMax : Nat)
  | arrv (elements : List VMVal)
  | mapv (properties : List (String × VMVal))
  | builtin (tag : Nat)
  deriving Repr

/-- A bytecode chunk (`runtime/bytecode.go`): interleaved opcodes and
operands, the constants pool, and the dedup cache `constMap`.  The
`lineInfo` debug array never influences behaviour and is dropped. -/
structure Chunk where
  code : List Int
  consts : List VMVal
  constMap : List (String × Nat)
  deriving Repr

def NewChunk : Chunk := ⟨[], [], []⟩

/-- `Chunk.emit`: append the opcode and its operands.  (Callers read the
returned instruction position off as the code length before the append.) -/
def Chunk.emit (c : Chunk) (op : Int) (operands : List Int) : Chunk :=
  { c with code := c.code ++ op :: operands }

/-- Decimal string left-padded with zeros to six digits. -/
def pad6 (n : Nat) : String :=
  let s := natToDecimal n
  String.mk (List.replicate (6 - s.length) (Char.ofNat 48)) ++ s

/-- Go `fmt.Sprintf("%f", f)` (six decimal places) on the exact-fraction
model; the fractional part is rounded to nearest, ties away from zero. -/
def GoNum.render6 (q : GoNum) : String :=
  let d := q.den.toNat
  let scaled := (q.num.natAbs * 1000000 * 2 + d) / (2 * d)
  (if q.num < 0 then "-" else "")
    ++ natToDecimal (scaled / 1000000) ++ "." ++ pad6 (scaled % 1000000)

/-- `Chunk.getConstKey`: the deduplication key, `""` for values that are
not cached. -/
def getConstKey : VMVal → String
  | .num q =>
    if q.qeq (GoNum.ofInt 0) then "num:0"
    else if q.qeq (GoNum.ofInt 1) then "num:1"
    else if q.qeq (GoNum.ofInt (-1)) then "num:-1"
    else "num:" ++ q.render6
  | .str s => if s.utf8ByteSize < 64 then "str:" ++ s else ""
  | .bool b => if b then "bool:true" else "bool:false"
  | .nullv => "null"
  | _ => ""

/-- `Chunk.addConst` with deduplication. -/
def Chunk.addConst (c : Chunk) (v : VMVal) : Nat × Chunk :=
  let key := getConstKey v
  match (if key = "" then none else c.constMap.lookup key) with
  | some idx => (idx, c)
  | none =>
    let idx := c.consts.length
    let c1 : Chunk := { c with consts := c.consts ++ [v] }
    if key = "" then (idx, c1)
    else (idx, { c1 with constMap := c1.constMap ++ [(key, idx)] })

/-- `Compiler.patch`: the operand of the jump emitted at `jumpPos` becomes
`target` (`c.chunk.Code[jumpPos+1] = target`). -/
def Chunk.patch (c : Chunk) (jumpPos target : Nat) : Chunk :=
  { c with code := c.code.set (jumpPos + 1) (Int.ofNat target) }

/-- A compiler `functionScope`. -/
structure FnScope where
  locals : List (String × Nat)
  localsMax : Nat
  isTopLevel : Bool
  deriving Repr

/-- Compiler state.  `scopes` keeps the innermost scope first (the Go slice
appends at the tail and always addresses the last element; `popScope` is
never called). -/
structure Comp where
  chunk : Chunk
  scopes : List FnScope
  deriving Repr

def NewCompiler : Comp := ⟨NewChunk, [⟨[], 0, true⟩]⟩

/-- `Compiler.scope()`: the innermost scope (the compiler always holds at
least one scope, so the fallback is never taken). -/
def Comp.scope (c : Comp) : FnScope := c.scopes.headD ⟨[], 0, true⟩

def Comp.setScope (c : Comp) (s : FnScope) : Comp :=
  { c with scopes := s :: c.scopes.tail }

/-- `Compiler.ensureLocal`. -/
def Comp.ensureLocal (c : Comp) (name : String) : Nat × Comp :=
  let s := c.scope
  match s.locals.lookup name with
  | some slot => (slot, c)
  | none =>
    (s.localsMax,
     c.setScope ⟨s.locals ++ [(name, s.localsMax)], s.localsMax + 1, s.isTopLevel⟩)

def Comp.emit (c : Comp) (op : Int) (ops : List Int) : Comp :=
  { c with chunk := c.chunk.emit op ops }

def Comp.addConst (c : Comp) (v : VMVal) : Nat × Comp :=
  let r := c.chunk.addConst v
  (r.1, { c with chunk := r.2 })

def Comp.patch (c : Comp) (pos target : Nat) : Comp :=
  { c with chunk := c.chunk.patch pos target }

def Comp.codeLen (c : Comp) : Nat := c.chunk.code.length

/-- `tryOptimizeMathCall`: the fast math opcode for a call whose callee is
`math.X` / `m.X` with the matching arity, else `none` (the normal call path
is compiled). -/
def mathOpFor : Stmt → Nat → Option Int
  | .memberExpr (.identifier objSym) prop, argc =>
    if objSym == "math" || objSym == "m" then
      match prop, argc with
      | "pow", 2 => some OP_POW
      | "sqrt", 1 => some OP_SQRT
      | "sin", 1 => some OP_SIN
      | "cos", 1 => some OP_COS
      | "log", 1 => some OP_LOG
      | "exp", 1 => some OP_EXP
      | "abs", 1 => some OP_ABS
      | "floor", 1 => some OP_FLOOR
      | "ceil", 1 => some OP_CEIL
      | _, _ => none
    else none
  | _, _ => none

mutual

/-- `Compiler.compileStmt`.  `none` is the Go panic of the
expression-statement type assertion on a non-expression node (or fuel
exhaustion; fuel only bounds recursion depth). -/
def compileStmt : Nat → Stmt → Comp → Option Comp
  | 0, _, _ => none
  | Nat.succ f, s, c =>
    match s with
    | .varDeclaration ident value _ =>
      match compileExpr f value c with
      | none => none
      | some c1 =>
        if (Comp.scope c1).isTopLevel then
          let r := c1.addConst (.str ident)
          some (r.2.emit OP_STORE_GLOBAL [Int.ofNat r.1])
        else
          let r := c1.ensureLocal ident
          some (r.2.emit OP_STORE_LOCAL [Int.ofNat r.1])
    | .assignmentExpr assignee value =>
      match assignee with
      | .identifier sym =>
        match compileExpr f value c with
        | none => none
        | some c1 =>
          match (Comp.scope c1).locals.lookup sym with
          | some slot => some (c1.emit OP_STORE_LOCAL [Int.ofNat slot])
          | none =>
            let r := c1.addConst (.str sym)
            some (r.2.emit OP_STORE_GLOBAL [Int.ofNat r.1])
      | _ => some c
    | .ifStatement cond cons alt =>
      match compileExpr f cond c with
      | none => none
      | some c1 =>
        let jfalse := c1.codeLen
        let c2 := c1.emit OP_JUMP_IF_FALSE [-1]
        match compileList f cons c2 with
        | none => none
        | some c3 =>
          let jend := c3.codeLen
          let c4 := c3.emit OP_JUMP [-1]
          let c5 := c4.patch jfalse c4.codeLen
          match alt with
          | some b =>
            match compileList f b c5 with
            | none => none
            | some c6 => some (c6.patch jend c6.codeLen)
          | none => some (c5.patch jend c5.codeLen)
    | .whileStatement cond body =>
      let start := c.codeLen
      match compileExpr f cond c with
      | none => none
      | some c1 =>
        let jfalse := c1.codeLen
        let c2 := c1.emit OP_JUMP_IF_FALSE [-1]
        match compileList f body c2 with
        | none => none
        | some c3 =>
          let c4 := c3.emit OP_JUMP [Int.ofNat start]
          some (c4.patch jfalse c4.codeLen)
    | .forStatement ident rng body =>
      let r := c.ensureLocal ident
      let c2 := (r.2.emit OP_LOAD_CONST_0 []).emit OP_STORE_LOCAL [Int.ofNat r.1]
      match compileExpr f rng c2 with
      | none => none
      | some c3 =>
        let loopStart := c3.codeLen
        let c4 := c3.emit OP_FOR_LOOP_NEXT [Int.ofNat r.1]
        let jfalse := c4.codeLen
        let c5 := c4.emit OP_JUMP_IF_FALSE [-1]
        match compileList f body c5 with
        | none => none
        | some c6 =>
          let c7 := c6.emit OP_JUMP [Int.ofNat loopStart]
          let c8 := c7.patch jfalse c7.codeLen
          some (c8.emit OP_POP [])
    | .functionDeclaration name params body =>
      match compileFunction f name params body with
      | none => none
      | some fnv =>
        let r := c.addConst fnv
        if (Comp.scope r.2).isTopLevel then
          let r2 := r.2.addConst (.str name)
          some ((r2.2.emit OP_CONST [Int.ofNat r.1]).emit OP_STORE_GLOBAL
            [Int.ofNat r2.1])
        else
          let r2 := r.2.ensureLocal name
          some ((r2.2.emit OP_CONST [Int.ofNat r.1]).emit OP_STORE_LOCAL
            [Int.ofNat r2.1])
    | .returnStatement value =>
      match compileExpr f value c with
      | none => none
      | some c1 => some (c1.emit OP_RET [])
    | .numericLiteral _ | .stringLiteral _ | .booleanLiteral _ | .identifier _
    | .binaryExpr _ _ _ | .callExpr _ _ | .memberExpr _ _ | .arrayLiteral _
    | .mapLiteral _ | .unaryExpr _ _ _ =>
      match compileExpr f s c with
      | none => none
      | some c1 => some (c1.emit OP_POP [])
    | _ => none
  termination_by structural u _ _ => u

/-- `Compiler.compileBlock` / the body loop of `Compiler.Compile`. -/
def compileList : Nat → List Stmt → Comp → Option Comp
  | 0, _, _ => none
  | Nat.succ _, [], c => some c
  | Nat.succ f, s :: rest, c =>
    match compileStmt f s c with
    | none => none
    | some c1 => compileList f rest c1
  termination_by structural u _ _ => u

/-- `Compiler.compileExpr`.  Array and map literals, and every node the
expression switch does not know (including a `VarDeclaration` appearing in
expression position), compile to `CONST null`. -/
def compileExpr : Nat → Stmt → Comp → Option Comp
  | 0, _, _ => none
  | Nat.succ f, e, c =>
    match e with
    | .numericLiteral q =>
      if q.qeq (GoNum.ofInt 0) then some (c.emit OP_LOAD_CONST_0 [])
      else if q.qeq (GoNum.ofInt 1) then some (c.emit OP_LOAD_CONST_1 [])
      else
        let r := c.addConst (.num q)
        some (r.2.emit OP_CONST [Int.ofNat r.1])
    | .stringLiteral sv =>
      let r := c.addConst (.str sv)
      some (r.2.emit OP_CONST [Int.ofNat r.1])
    | .booleanLiteral b =>
      some (c.emit (if b then OP_LOAD_TRUE else OP_LOAD_FALSE) [])
    | .identifier sym =>
      match (Comp.scope c).locals.lookup sym with
      | some slot => some (c.emit OP_LOAD_LOCAL [Int.ofNat slot])
      | none =>
        let r := c.addConst (.str sym)
        some (r.2.emit OP_LOAD_GLOBAL [Int.ofNat r.1])
    | .binaryExpr l rgt opstr =>
      match compileExpr f l c with
      | none => none
      | some c1 =>
        match compileExpr f rgt c1 with
        | none => none
        | some c2 =>
          some (if opstr == "+" then c2.emit OP_ADD []
            else if opstr == "-" then c2.emit OP_SUB []
            else if opstr == "*" then c2.emit OP_MUL []
            else if opstr == "/" then c2.emit OP_DIV []
            else if opstr == "==" then c2.emit OP_CMP_EQ []
            else if opstr == "!=" then c2.emit OP_CMP_NE []
            else if opstr == "<" then c2.emit OP_CMP_LT []
            else if opstr == "<=" then c2.emit OP_CMP_LE []
            else if opstr == ">" then c2.emit OP_CMP_GT []
            else if opstr == ">=" then c2.emit OP_CMP_GE []
            else c2)
    | .callExpr callee args =>
      match mathOpFor callee args.length with
      | some opc =>
        match compileExprList f args c with
        | none => none
        | some c1 => some (c1.emit opc [])
      | none =>
        match compileExpr f callee c with
        | none => none
        | some c1 =>
          match compileExprList f args c1 with
          | none => none
          | some c2 => some (c2.emit OP_CALL [Int.ofNat args.length])
    | .memberExpr obj prop =>
      match compileExpr f obj c with
      | none => none
      | some c1 =>
        let r := c1.addConst (.str prop)
        some (r.2.emit OP_GET_PROP [Int.ofNat r.1])
    | _ =>
      let r := c.addConst .nullv
      some (r.2.emit OP_CONST [Int.ofNat r.1])
  termination_by structural u _ _ => u

/-- Argument lists of calls, compiled left to right. -/
def compileExprList : Nat → List Stmt → Comp → Option Comp
  | 0, _, _ => none
  | Nat.succ _, [], c => some c
  | Nat.succ f, e :: rest, c =>
    match compileExpr f e c with
    | none => none
    | some c1 => compileExprList f rest c1
  termination_by structural u _ _ => u

/-- `Compiler.compileFunction`: a fresh inner compiler whose single
non-top-level scope starts with the parameters as locals; the body is
followed by an implicit `LOAD_NULL; RET`. -/
def compileFunction : Nat → String → List String → List Stmt → Option VMVal
  | 0, _, _, _ => none
  | Nat.succ f, name, params, body =>
    let inner : Comp := ⟨NewChunk, [⟨[], 0, false⟩]⟩
    let inner := params.foldl (fun ci p => (ci.ensureLocal p).2) inner
    match compileList f body inner with
    | none => none
    | some c1 =>
      let c2 := (c1.emit OP_LOAD_NULL []).emit OP_RET []
      some (.fn name params.length c2.chunk.code c2.chunk.consts
        (Comp.scope c2).localsMax)
  termination_by structural u _ _ _ => u

end

/-- Decision of a peephole rule at one scan position: rewrite and shrink,
Go panic, or no change. -/
inductive R1 where
  | fire (newop : Int)
  | panicv
  | skip
  deriving Repr, DecidableEq

/-- First peephole rule of `Compiler.optimize` at scan position `i`:
`CONST k` where `Consts[k]` is the number 0 or 1 or a boolean.  A negative
pool index passes the `code[i+1] < len(Consts)` guard and then panics. -/
def rule1 (consts : List VMVal) (arr : List Int) (i : Nat) : R1 :=
  let e0 := (arr.get? i).getD 0
  let e1 := (arr.get? (i + 1)).getD 0
  if e0 = OP_CONST ∧ e1 < (consts.length : Int) then
    if e1 < 0 then .panicv
    else
      match consts.get? e1.toNat with
      | some (.num q) =>
        if q.qeq (GoNum.ofInt 0) then .fire OP_LOAD_CONST_0
        else if q.qeq (GoNum.ofInt 1) then .fire OP_LOAD_CONST_1
        else .skip
      | some (.bool b) => .fire (if b then OP_LOAD_TRUE else OP_LOAD_FALSE)
      | _ => .skip
  else .skip

/-- Second peephole rule: `LOAD_LOCAL s; CONST k; ADD; STORE_LOCAL s` with
`Consts[k] = 1` becomes `INCREMENT_LOCAL`.  The guard reads `code[i+6]`
after checking only `i+5 < len(code)`, so the read one past the end (when
the window ends exactly at the last entry) is a Go panic, as is a negative
pool index. -/
def rule2 (consts : List VMVal) (arr : List Int) (i : Nat) : R1 :=
  if i + 5 < arr.length
      ∧ (arr.get? i).getD 0 = OP_LOAD_LOCAL
      ∧ (arr.get? (i + 2)).getD 0 = OP_CONST
      ∧ (arr.get? (i + 4)).getD 0 = OP_ADD
      ∧ (arr.get? (i + 5)).getD 0 = OP_STORE_LOCAL then
    match arr.get? (i + 6) with
    | none => .panicv
    | some v6 =>
      if (arr.get? (i + 1)).getD 0 = v6 then
        let cIdx := (arr.get? (i + 3)).getD 0
        if cIdx < (consts.length : Int) then
          if cIdx < 0 then .panicv
          else
            match consts.get? cIdx.toNat with
            | some (.num q) =>
              if q.qeq (GoNum.ofInt 1) then .fire OP_INCREMENT_LOCAL else .skip
            | _ => .skip
        else .skip
      else .skip
  else .skip

/-- `copy(code[i+1:], code[i+2:])`: shift left by one from `i+1`; the last
entry keeps its old value and the length is unchanged. -/
def shift1 (a : List Int) (i : Nat) : List Int :=
  a.take (i + 1) ++ a.drop (i + 2) ++ a.drop (a.length - 1)

/-- `copy(code[i+2:], code[i+7:])`: shift left by five from `i+2`; the
final five entries keep their old values and the length is unchanged. -/
def shift5 (a : List Int) (i : Nat) : List Int :=
  a.take (i + 2) ++ a.drop (i + 7) ++ a.drop (a.length - 5)

/-- The scan loop of `Compiler.optimize`, modelling Go slice aliasing
precisely: the loop reads and writes the local slice `code` (the full
original backing array, whose length never changes), while each firing
reslices `c.chunk.Code` to `len(code) - 1` (rule one) or `len(code) - 5`
(rule two), `len(code)` being the stale local length.  The result is the
final backing array plus the chunk's final length; `none` is a Go panic. -/
def optAux (consts : List VMVal) : Nat → List Int → Nat → Nat → Option (List Int × Nat)
  | 0, arr, _, outLen => some (arr, outLen)
  | Nat.succ fl, arr, i, outLen =>
    if i < arr.length - 2 then
      match rule1 consts arr i with
      | .panicv => none
      | .fire newop =>
        optAux consts fl (shift1 (arr.set i newop) i) (i + 1) (arr.length - 1)
      | .skip =>
        match rule2 consts arr i with
        | .panicv => none
        | .fire _ =>
          optAux consts fl (shift5 (arr.set i OP_INCREMENT_LOCAL) i) (i + 1)
            (arr.length - 5)
        | .skip => optAux consts fl arr (i + 1) outLen
    else some (arr, outLen)
  termination_by structural u _ _ _ => u

/-- `Compiler.optimize` on a chunk's code and pool: the final chunk code is
the final reslice of the (possibly rewritten) backing array. -/
def optimize (consts : List VMVal) (code : List Int) : Option (List Int) :=
  match optAux consts (code.length + 1) code 0 code.length with
  | none => none
  | some r => some (r.1.take r.2)

/-- `Compiler.Compile` up to (but not including) the `optimize` call: the
program body compiled into the top-level function, followed by the implicit
`LOAD_NULL; RET`.  Returns the chunk and the top scope's `localsMax`. -/
def compileProgramRaw (f : Nat) (body : List Stmt) : Option (Chunk × Nat) :=
  match compileList f body NewCompiler with
  | none => none
  | some c1 =>
    let c2 := (c1.emit OP_LOAD_NULL []).emit OP_RET []
    some (c2.chunk, (Comp.scope c2).localsMax)

/-- VM run outcome: the returned value, a catchable `*Error`, an
uncatchable Go panic, or fuel exhaustion. -/
inductive VMOut where
  | ok (v : VMVal)
  | err (msg : String)
  | goPanic (msg : String)
  | timeout
  deriving Repr

/-- A call frame.  `ip` and `base` are Go `int`s; jump targets and operands
come straight from the code array, so they stay `Int` here. -/
structure VMFrame where
  code : List Int
  consts : List VMVal
  ip : Int
  base : Int
  deriving Repr

/-- The VM state: the value stack with its pointer, the frame stack
(innermost frame first; the Go slice appends at the tail), and the globals
environment (a parentless `Environment`: name-value bindings plus the set
of constant names). -/
structure VMSt where
  stack : List VMVal
  sp : Nat
  frames : List VMFrame
  gvars : List (String × VMVal)
  gconsts : List String
  deriving Repr

/-- `VM.push`: one doubling growth step when full, then an indexed write
(a write still out of range is a Go panic, hence `none`). -/
def vmPush (stack : List VMVal) (sp : Nat) (v : VMVal) : Option (List VMVal × Nat) :=
  if sp < stack.length then some (stack.set sp v, sp + 1)
  else
    let g := stack ++ List.replicate stack.length .goNil
    if sp < g.length then some (g.set sp v, sp + 1) else none

/-- `VM.pop`: decrement, read, clear the slot to nil.  `none` is the Go
panic of indexing at `-1` (or past the array). -/
def vmPop (stack : List VMVal) (sp : Nat) : Option (VMVal × List VMVal × Nat) :=
  match sp with
  | 0 => none
  | Nat.succ sp1 =>
    match stack.get? sp1 with
    | none => none
    | some v => some (v, stack.set sp1 .goNil, sp1)

/-- `VM.peek`. -/
def vmPeek (stack : List VMVal) (sp : Nat) : Option VMVal :=
  match sp with
  | 0 => none
  | Nat.succ sp1 => stack.get? sp1

/-- Indexed stack read at a Go `int` index (`none` is an index panic). -/
def idxGet (stack : List VMVal) (idx : Int) : Option VMVal :=
  if idx < 0 then none else stack.get? idx.toNat

/-- Indexed stack write at a Go `int` index (`none` is an index panic). -/
def idxSet (stack : List VMVal) (idx : Int) (v : VMVal) : Option (List VMVal) :=
  if idx < 0 then none
  else if idx.toNat < stack.length then some (stack.set idx.toNat v) else none

/-- Code read at the instruction pointer (`none` is an index panic). -/
def readOperand (code : List Int) (ip : Int) : Option Int :=
  if ip < 0 then none else code.get? ip.toNat

/-- `RuntimeVal.String()` (runtime/value.go); `none` is the nil-interface
method-call panic. -/
def vmToString : VMVal → Option String
  | .num q => some q.render
  | .str s => some s
  | .bool b => some (if b then "true" else "false")
  | .nullv => some "null"
  | .goNil => none
  | .fn _ _ _ _ _ => some "[function]"
  | .arrv _ => some "[...Array]"
  | .mapv _ => some "\x7b...Map\x7d"
  | .builtin _ => some "[function]"

/-- `RuntimeVal.Type()`; `none` is the nil-interface method-call panic. -/
def vmTypeOf : VMVal → Option String
  | .num _ => some "Number"
  | .str _ => some "String"
  | .bool _ => some "Boolean"
  | .nullv => some "Null"
  | .goNil => none
  | .fn _ _ _ _ _ => some "Function"
  | .arrv _ => some "Array"
  | .mapv _ => some "Map"
  | .builtin _ => some "Function"

/-- `OpCode.String()`. -/
def opName (op : Int) : String :=
  if op = OP_CONST then "CONST"
  else if op = OP_LOAD_GLOBAL then "LOAD_GLOBAL"
  else if op = OP_STORE_GLOBAL then "STORE_GLOBAL"
  else if op = OP_LOAD_LOCAL then "LOAD_LOCAL"
  else if op = OP_STORE_LOCAL then "STORE_LOCAL"
  else if op = OP_ADD then "ADD"
  else if op = OP_SUB then "SUB"
  else if op = OP_MUL then "MUL"
  else if op = OP_DIV then "DIV"
  else if op = OP_CMP_EQ then "CMP_EQ"
  else if op = OP_CMP_NE then "CMP_NE"
  else if op = OP_CMP_LT then "CMP_LT"
  else if op = OP_CMP_LE then "CMP_LE"
  else if op = OP_CMP_GT then "CMP_GT"
  else if op = OP_CMP_GE then "CMP_GE"
  else if op = OP_JUMP then "JUMP"
  else if op = OP_JUMP_IF_FALSE then "JUMP_IF_FALSE"
  else if op = OP_CALL then "CALL"
  else if op = OP_RET then "RET"
  else if op = OP_POP then "POP"
  else if op = OP_GET_PROP then "GET_PROP"
  else if op = OP_IMPORT then "IMPORT"
  else if op = OP_LOAD_CONST_0 then "LOAD_CONST_0"
  else if op = OP_LOAD_CONST_1 then "LOAD_CONST_1"
  else if op = OP_LOAD_TRUE then "LOAD_TRUE"
  else if op = OP_LOAD_FALSE then "LOAD_FALSE"
  else if op = OP_LOAD_NULL then "LOAD_NULL"
  else if op = OP_DUP then "DUP"
  else if op = OP_SWAP then "SWAP"
  else if op = OP_INCREMENT_LOCAL then "INCREMENT_LOCAL"
  else if op = OP_DECREMENT_LOCAL then "DECREMENT_LOCAL"
  else if op = OP_CONCAT_2 then "CONCAT_2"
  else if op = OP_CONCAT_N then "CONCAT_N"
  else if op = OP_MAKE_ARRAY then "MAKE_ARRAY"
  else if op = OP_MAKE_MAP then "MAKE_MAP"
  else if op = OP_FOR_LOOP_NEXT then "FOR_LOOP_NEXT"
  else if op = OP_POW then "POW"
  else if op = OP_SQRT then "SQRT"
  else if op = OP_SIN then "SIN"
  else if op = OP_COS then "COS"
  else if op = OP_LOG then "LOG"
  else if op = OP_EXP then "EXP"
  else if op = OP_ABS then "ABS"
  else if op = OP_FLOOR then "FLOOR"
  else if op = OP_CEIL then "CEIL"
  else "?"

/-- Host `math` package calls whose float64 results the exact-fraction
model cannot reproduce; a run of the VM is parametric in them. -/
structure MathOracle where
  pow : GoNum → GoNum → GoNum
  sqrt : GoNum → GoNum
  sin : GoNum → GoNum
  cos : GoNum → GoNum
  log : GoNum → GoNum
  exp : GoNum → GoNum

/-- `math.Abs` (exact on the fraction model). -/
def GoNum.goAbs (q : GoNum) : GoNum := ⟨(q.num.natAbs : Int), q.den⟩

/-- `math.Floor` (exact). -/
def GoNum.goFloor (q : GoNum) : GoNum := GoNum.ofInt (q.num.fdiv q.den)

/-- `math.Ceil` (exact). -/
def GoNum.goCeil (q : GoNum) : GoNum := GoNum.ofInt (-((-q.num).fdiv q.den))

def orPanic {α : Type} (o : Option α) (msg : String) : Except VMOut α :=
  match o with
  | some a => Except.ok a
  | none => Except.error (VMOut.goPanic msg)

def vmErr {α : Type} (msg : String) : Except VMOut α := Except.error (VMOut.err msg)

/-- `*StringVal` type assertion (`none` is the conversion panic). -/
def asStr : VMVal → Option String
  | .str s => some s
  | _ => none

def vmPopE (st : VMSt) : Except VMOut (VMVal × VMSt) :=
  match vmPop st.stack st.sp with
  | none => Except.error (VMOut.goPanic "index out of range")
  | some (v, stk, sp) => Except.ok (v, { st with stack := stk, sp := sp })

def vmPushE (st : VMSt) (v : VMVal) : Except VMOut VMSt :=
  match vmPush st.stack st.sp v with
  | none => Except.error (VMOut.goPanic "index out of range")
  | some (stk, sp) => Except.ok { st with stack := stk, sp := sp }

def vmPeekE (st : VMSt) : Except VMOut VMVal :=
  match vmPeek st.stack st.sp with
  | none => Except.error (VMOut.goPanic "index out of range")
  | some v => Except.ok v

/-- The unchecked pushes `pushConst0`/`pushConst1`/`pushTrue`/`pushFalse`/
`pushNull`: an indexed write with no growth step. -/
def vmFastPush (st : VMSt) (v : VMVal) : Except VMOut VMSt :=
  if st.sp < st.stack.length then
    Except.ok { st with stack := st.stack.set st.sp v, sp := st.sp + 1 }
  else Except.error (VMOut.goPanic "index out of range")

/-- Pop `n` values; the list is in stack order, bottom first (the Go loops
fill `args[argc-1]` down to `args[0]` from successive pops). -/
def popN : Nat → VMSt → Except VMOut (List VMVal × VMSt)
  | 0, st => Except.ok ([], st)
  | Nat.succ n, st => do
    let (v, st1) ← vmPopE st
    let (acc, st2) ← popN n st1
    Except.ok (acc ++ [v], st2)

/-- The `OP_CONCAT_N` loop: `result = vm.pop().String() + result`. -/
def concatN : Nat → VMSt → String → Except VMOut (String × VMSt)
  | 0, st, acc => Except.ok (acc, st)
  | Nat.succ n, st, acc => do
    let (v, st1) ← vmPopE st
    let s ← orPanic (vmToString v) "nil String call"
    concatN n st1 (s ++ acc)

/-- The `OP_MAKE_MAP` loop: pop value then key, top pair first, each pair
written into the map. -/
def makeMapN : Nat → VMSt → List (String × VMVal) →
    Except VMOut (List (String × VMVal) × VMSt)
  | 0, st, acc => Except.ok (acc, st)
  | Nat.succ n, st, acc => do
    let (value, st1) ← vmPopE st
    let (key, st2) ← vmPopE st1
    match key with
    | .str k => makeMapN n st2 (mapSet k value acc)
    | _ => vmErr "map keys must be strings"

/-- One iteration of the `VM.Run` dispatch loop (runtime/vm.go 66-428).
`Except.error` carries the loop's exit (return value, `*Error`, or Go
panic); `Except.ok` is the next machine state. -/
def vmStep (mo : MathOracle) (bi : Nat → List VMVal → Except String VMVal)
    (mods : String → Option VMVal) (st : VMSt) : Except VMOut VMSt :=
  match st.frames with
  | [] =>
    if st.sp > 0 then
      match vmPop st.stack st.sp with
      | none => Except.error (VMOut.goPanic "index out of range")
      | some (v, _, _) => Except.error (VMOut.ok v)
    else Except.error (VMOut.ok .nullv)
  | fr :: rest =>
    if (fr.code.length : Int) ≤ fr.ip then
      Except.ok { st with frames := rest }
    else do
      let op ← orPanic (readOperand fr.code fr.ip) "index out of range"
      let ip1 := fr.ip + 1
      if op = OP_CONST then do
        let idx ← orPanic (readOperand fr.code ip1) "index out of range"
        let v ← orPanic (if idx < 0 then none else fr.consts.get? idx.toNat)
          "index out of range"
        let st1 ← vmPushE st v
        Except.ok { st1 with frames := { fr with ip := ip1 + 1 } :: rest }
      else if op = OP_LOAD_GLOBAL then do
        let nameIdx ← orPanic (readOperand fr.code ip1) "index out of range"
        let cv ← orPanic (if nameIdx < 0 then none else fr.consts.get? nameIdx.toNat)
          "index out of range"
        let name ← orPanic (asStr cv) "interface conversion"
        let v ← orPanic (st.gvars.lookup name) (resolveMsg name)
        let st1 ← vmPushE st v
        Except.ok { st1 with frames := { fr with ip := ip1 + 1 } :: rest }
      else if op = OP_STORE_GLOBAL then do
        let nameIdx ← orPanic (readOperand fr.code ip1) "index out of range"
        let cv ← orPanic (if nameIdx < 0 then none else fr.consts.get? nameIdx.toNat)
          "index out of range"
        let name ← orPanic (asStr cv) "interface conversion"
        let (val, st1) ← vmPopE st
        let st2 :=
          match st1.gvars.lookup name with
          | some _ => { st1 with gvars := mapSet name val st1.gvars }
          | none => { st1 with gvars := st1.gvars ++ [(name, val)] }
        Except.ok { st2 with frames := { fr with ip := ip1 + 1 } :: rest }
      else if op = OP_LOAD_LOCAL then do
        let slot ← orPanic (readOperand fr.code ip1) "index out of range"
        let v ← orPanic (idxGet st.stack (fr.base + slot)) "index out of range"
        let st1 ← vmPushE st v
        Except.ok { st1 with frames := { fr with ip := ip1 + 1 } :: rest }
      else if op = OP_STORE_LOCAL then do
        let slot ← orPanic (readOperand fr.code ip1) "index out of range"
        let v ← vmPeekE st
        let stk ← orPanic (idxSet st.stack (fr.base + slot) v) "index out of range"
        Except.ok { st with stack := stk, frames := { fr with ip := ip1 + 1 } :: rest }
      else if op = OP_ADD ∨ op = OP_SUB ∨ op = OP_MUL ∨ op = OP_DIV then do
        let (r, st1) ← vmPopE st
        let (l, st2) ← vmPopE st1
        match l, r with
        | .num a, .num b => do
          let st3 ←
            if op = OP_ADD then vmPushE st2 (.num (a.add b))
            else if op = OP_SUB then vmPushE st2 (.num (a.sub b))
            else if op = OP_MUL then vmPushE st2 (.num (a.mul b))
            else
              if b.qeq (GoNum.ofInt 0) then vmErr "division by zero"
              else vmPushE st2 (.num (a.div b))
          Except.ok { st3 with frames := { fr with ip := ip1 } :: rest }
        | _, _ =>
          if op = OP_ADD then
            match l with
            | .str ls => do
              let rs ← orPanic (vmToString r) "nil String call"
              let st3 ← vmPushE st2 (.str (ls ++ rs))
              Except.ok { st3 with frames := { fr with ip := ip1 } :: rest }
            | _ =>
              match r with
              | .str rs => do
                let ls ← orPanic (vmToString l) "nil String call"
                let st3 ← vmPushE st2 (.str (ls ++ rs))
                Except.ok { st3 with frames := { fr with ip := ip1 } :: rest }
              | _ => vmErr ("unsupported operands for op: " ++ opName op)
          else vmErr ("unsupported operands for op: " ++ opName op)
      else if op = OP_CMP_EQ ∨ op = OP_CMP_NE ∨ op = OP_CMP_LT ∨ op = OP_CMP_LE
          ∨ op = OP_CMP_GT ∨ op = OP_CMP_GE then do
        let (r, st1) ← vmPopE st
        let (l, st2) ← vmPopE st1
        match l, r with
        | .num a, .num b => do
          let res : Bool :=
            if op = OP_CMP_EQ then a.qeq b
            else if op = OP_CMP_NE then !(a.qeq b)
            else if op = OP_CMP_LT then a.qlt b
            else if op = OP_CMP_LE then a.qle b
            else if op = OP_CMP_GT then b.qlt a
            else b.qle a
          let st3 ← vmPushE st2 (.bool res)
          Except.ok { st3 with frames := { fr with ip := ip1 } :: rest }
        | .str ls, .str rs =>
          if op = OP_CMP_EQ then do
            let st3 ← vmPushE st2 (.bool (ls == rs))
            Except.ok { st3 with frames := { fr with ip := ip1 } :: rest }
          else if op = OP_CMP_NE then do
            let st3 ← vmPushE st2 (.bool (ls != rs))
            Except.ok { st3 with frames := { fr with ip := ip1 } :: rest }
          else vmErr "unsupported string comparison"
        | _, _ => vmErr "unsupported comparison"
      else if op = OP_JUMP then do
        let addr ← orPanic (readOperand fr.code ip1) "index out of range"
        Except.ok { st with frames := { fr with ip := addr } :: rest }
      else if op = OP_JUMP_IF_FALSE then do
        let addr ← orPanic (readOperand fr.code ip1) "index out of range"
        let (cond, st1) ← vmPopE st
        let ip2 : Int :=
          match cond with
          | .bool false => addr
          | _ => ip1 + 1
        Except.ok { st1 with frames := { fr with ip := ip2 } :: rest }
      else if op = OP_CALL then do
        let argc ← orPanic (readOperand fr.code ip1) "index out of range"
        let callee ← orPanic (idxGet st.stack ((st.sp : Int) - argc - 1))
          "index out of range"
        match callee with
        | .builtin tag => do
          if argc < 0 then Except.error (VMOut.goPanic "makeslice: len out of range")
          else do
            let (args, st1) ← popN argc.toNat st
            let (_, st2) ← vmPopE st1
            match bi tag args with
            | Except.error msg => Except.error (VMOut.err msg)
            | Except.ok res => do
              let st3 ← vmPushE st2 res
              Except.ok { st3 with frames := { fr with ip := ip1 + 1 } :: rest }
        | .fn _ _ code2 consts2 _ =>
          Except.ok { st with frames :=
            ⟨code2, consts2, 0, (st.sp : Int) - argc⟩
              :: { fr with ip := ip1 + 1 } :: rest }
        | _ => vmErr "not a function"
      else if op = OP_RET then do
        let (retVal, st1) ← vmPopE st
        match rest with
        | [] => Except.error (VMOut.ok retVal)
        | _ => do
          let newSp := fr.base - 1
          if newSp < 0 then Except.error (VMOut.goPanic "slice bounds out of range")
          else if st1.stack.length < newSp.toNat then
            Except.error (VMOut.goPanic "slice bounds out of range")
          else do
            let st2 := { st1 with stack := st1.stack.take newSp.toNat, sp := newSp.toNat, frames := rest }
            vmPushE st2 retVal
      else if op = OP_POP then do
        let (_, st1) ← vmPopE st
        Except.ok { st1 with frames := { fr with ip := ip1 } :: rest }
      else if op = OP_GET_PROP then do
        let nameIdx ← orPanic (readOperand fr.code ip1) "index out of range"
        let cv ← orPanic (if nameIdx < 0 then none else fr.consts.get? nameIdx.toNat)
          "index out of range"
        let name ← orPanic (asStr cv) "interface conversion"
        let (obj, st1) ← vmPopE st
        match obj with
        | .mapv props =>
          match props.lookup name with
          | some v => do
            let st2 ← vmPushE st1 v
            Except.ok { st2 with frames := { fr with ip := ip1 + 1 } :: rest }
          | none => vmErr ("unknown property: " ++ name)
        | _ => do
          let t ← orPanic (vmTypeOf obj) "nil Type call"
          vmErr ("cannot get property " ++ sq ++ name ++ sq ++ " on " ++ t)
      else if op = OP_IMPORT then do
        let aliasIdx ← orPanic (readOperand fr.code ip1) "index out of range"
        let pathIdx ← orPanic (readOperand fr.code (ip1 + 1)) "index out of range"
        let av ← orPanic (if aliasIdx < 0 then none else fr.consts.get? aliasIdx.toNat)
          "index out of range"
        let pv ← orPanic (if pathIdx < 0 then none else fr.consts.get? pathIdx.toNat)
          "index out of range"
        let aliasName ← orPanic (asStr av) "interface conversion"
        let path ← orPanic (asStr pv) "interface conversion"
        match mods path with
        | none => vmErr ("unknown module: " ++ path)
        | some mod =>
          match st.gvars.lookup aliasName with
          | some _ => Except.error (VMOut.goPanic (declareMsg aliasName))
          | none =>
            Except.ok { st with gvars := st.gvars ++ [(aliasName, mod)], gconsts := st.gconsts ++ [aliasName], frames := { fr with ip := ip1 + 2 } :: rest }
      else if op = OP_LOAD_CONST_0 then do
        let st1 ← vmFastPush st (.num (GoNum.ofInt 0))
        Except.ok { st1 with frames := { fr with ip := ip1 } :: rest }
      else if op = OP_LOAD_CONST_1 then do
        let st1 ← vmFastPush st (.num (GoNum.ofInt 1))
        Except.ok { st1 with frames := { fr with ip := ip1 } :: rest }
      else if op = OP_LOAD_TRUE then do
        let st1 ← vmFastPush st (.bool true)
        Except.ok { st1 with frames := { fr with ip := ip1 } :: rest }
      else if op = OP_LOAD_FALSE then do
        let st1 ← vmFastPush st (.bool false)
        Except.ok { st1 with frames := { fr with ip := ip1 } :: rest }
      else if op = OP_LOAD_NULL then do
        let st1 ← vmFastPush st .nullv
        Except.ok { st1 with frames := { fr with ip := ip1 } :: rest }
      else if op = OP_DUP then do
        let v ← vmPeekE st
        let st1 ← vmPushE st v
        Except.ok { st1 with frames := { fr with ip := ip1 } :: rest }
      else if op = OP_SWAP then do
        let (a, st1) ← vmPopE st
        let (b, st2) ← vmPopE st1
        let st3 ← vmPushE st2 a
        let st4 ← vmPushE st3 b
        Except.ok { st4 with frames := { fr with ip := ip1 } :: rest }
      else if op = OP_INCREMENT_LOCAL then do
        let slot ← orPanic (readOperand fr.code ip1) "index out of range"
        let v ← orPanic (idxGet st.stack (fr.base + slot)) "index out of range"
        match v with
        | .num q => do
          let stk ← orPanic
            (idxSet st.stack (fr.base + slot) (.num (q.add (GoNum.ofInt 1))))
            "index out of range"
          Except.ok { st with stack := stk, frames := { fr with ip := ip1 + 1 } :: rest }
        | _ => vmErr "cannot increment non-number"
      else if op = OP_DECREMENT_LOCAL then do
        let slot ← orPanic (readOperand fr.code ip1) "index out of range"
        let v ← orPanic (idxGet st.stack (fr.base + slot)) "index out of range"
        match v with
        | .num q => do
          let stk ← orPanic
            (idxSet st.stack (fr.base + slot) (.num (q.sub (GoNum.ofInt 1))))
            "index out of range"
          Except.ok { st with stack := stk, frames := { fr with ip := ip1 + 1 } :: rest }
        | _ => vmErr "cannot decrement non-number"
      else if op = OP_CONCAT_2 then do
        let (r, st1) ← vmPopE st
        let (l, st2) ← vmPopE st1
        let ls ← orPanic (vmToString l) "nil String call"
        let rs ← orPanic (vmToString r) "nil String call"
        let st3 ← vmPushE st2 (.str (ls ++ rs))
        Except.ok { st3 with frames := { fr with ip := ip1 } :: rest }
      else if op = OP_CONCAT_N then do
        let n ← orPanic (readOperand fr.code ip1) "index out of range"
        let (s, st1) ← concatN n.toNat st ""
        let st2 ← vmPushE st1 (.str s)
        Except.ok { st2 with frames := { fr with ip := ip1 + 1 } :: rest }
      else if op = OP_MAKE_ARRAY then do
        let n ← orPanic (readOperand fr.code ip1) "index out of range"
        if n < 0 then Except.error (VMOut.goPanic "makeslice: len out of range")
        else do
          let (elements, st1) ← popN n.toNat st
          let st2 ← vmPushE st1 (.arrv elements)
          Except.ok { st2 with frames := { fr with ip := ip1 + 1 } :: rest }
      else if op = OP_MAKE_MAP then do
        let n ← orPanic (readOperand fr.code ip1) "index out of range"
        let (props, st1) ← makeMapN n.toNat st []
        let st2 ← vmPushE st1 (.mapv props)
        Except.ok { st2 with frames := { fr with ip := ip1 + 1 } :: rest }
      else if op = OP_FOR_LOOP_NEXT then do
        let slot ← orPanic (readOperand fr.code ip1) "index out of range"
        let counter ← orPanic (idxGet st.stack (fr.base + slot)) "index out of range"
        let limit ← vmPeekE st
        match counter, limit with
        | .num cq, .num lq => do
          let st1 ← vmPushE st (.bool (cq.qlt lq))
          let stk ← orPanic
            (idxSet st1.stack (fr.base + slot) (.num (cq.add (GoNum.ofInt 1))))
            "index out of range"
          Except.ok { st1 with stack := stk, frames := { fr with ip := ip1 + 1 } :: rest }
        | _, _ => vmErr "for loop requires numeric values"
      else if op = OP_POW then do
        let (y, st1) ← vmPopE st
        let (x, st2) ← vmPopE st1
        match x, y with
        | .num a, .num b => do
          let st3 ← vmPushE st2 (.num (mo.pow a b))
          Except.ok { st3 with frames := { fr with ip := ip1 } :: rest }
        | _, _ => vmErr "pow requires numeric arguments"
      else if op = OP_SQRT then do
        let (x, st1) ← vmPopE st
        match x with
        | .num a =>
          if a.qlt (GoNum.ofInt 0) then vmErr "sqrt of negative number"
          else do
            let st2 ← vmPushE st1 (.num (mo.sqrt a))
            Except.ok { st2 with frames := { fr with ip := ip1 } :: rest }
        | _ => vmErr "sqrt requires numeric argument"
      else if op = OP_SIN then do
        let (x, st1) ← vmPopE st
        match x with
        | .num a => do
          let st2 ← vmPushE st1 (.num (mo.sin a))
          Except.ok { st2 with frames := { fr with ip := ip1 } :: rest }
        | _ => vmErr "sin requires numeric argument"
      else if op = OP_COS then do
        let (x, st1) ← vmPopE st
        match x with
        | .num a => do
          let st2 ← vmPushE st1 (.num (mo.cos a))
          Except.ok { st2 with frames := { fr with ip := ip1 } :: rest }
        | _ => vmErr "cos requires numeric argument"
      else if op = OP_LOG then do
        let (x, st1) ← vmPopE st
        match x with
        | .num a =>
          if a.qle (GoNum.ofInt 0) then vmErr "log of non-positive number"
          else do
            let st2 ← vmPushE st1 (.num (mo.log a))
            Except.ok { st2 with frames := { fr with ip := ip1 } :: rest }
        | _ => vmErr "log requires numeric argument"
      else if op = OP_EXP then do
        let (x, st1) ← vmPopE st
        match x with
        | .num a => do
          let st2 ← vmPushE st1 (.num (mo.exp a))
          Except.ok { st2 with frames := { fr with ip := ip1 } :: rest }
        | _ => vmErr "exp requires numeric argument"
      else if op = OP_ABS then do
        let (x, st1) ← vmPopE st
        match x with
        | .num a => do
          let st2 ← vmPushE st1 (.num a.goAbs)
          Except.ok { st2 with frames := { fr with ip := ip1 } :: rest }
        | _ => vmErr "abs requires numeric argument"
      else if op = OP_FLOOR then do
        let (x, st1) ← vmPopE st
        match x with
        | .num a => do
          let st2 ← vmPushE st1 (.num a.goFloor)
          Except.ok { st2 with frames := { fr with ip := ip1 } :: rest }
        | _ => vmErr "floor requires numeric argument"
      else if op = OP_CEIL then do
        let (x, st1) ← vmPopE st
        match x with
        | .num a => do
          let st2 ← vmPushE st1 (.num a.goCeil)
          Except.ok { st2 with frames := { fr with ip := ip1 } :: rest }
        | _ => vmErr "ceil requires numeric argument"
      else vmErr "unknown opcode"

/-- The `VM.Run` dispatch loop, fuel-bounded. -/
def runVMAux (mo : MathOracle) (bi : Nat → List VMVal → Except String VMVal)
    (mods : String → Option VMVal) : Nat → VMSt → VMOut
  | 0, _ => .timeout
  | Nat.succ f, st =>
    match vmStep mo bi mods st with
    | Except.error out => out
    | Except.ok st1 => runVMAux mo bi mods f st1
  termination_by structural u _ => u

/-- `NewVM(globals)` followed by `Run(entry)`: the 1024-slot stack, the
entry function called with no arguments. -/
def runVM (mo : MathOracle) (bi : Nat → List VMVal → Except String VMVal)
    (mods : String → Option VMVal) (fuel : Nat) (entry : VMVal)
    (gvars : List (String × VMVal)) (gconsts : List String) : VMOut :=
  match entry with
  | .fn _ _ code consts _ =>
    runVMAux mo bi mods fuel
      { stack := List.replicate 1024 .goNil, sp := 0,
        frames := [⟨code, consts, 0, 0⟩], gvars := gvars, gconsts := gconsts }
  | _ => VMOut.goPanic "nil entry function"

/-- A pool value the peephole rules can never fire on: not the number 0,
not the number 1, not a boolean. -/
def poolSafeVal : VMVal → Bool
  | .num q => !q.qeq (GoNum.ofInt 0) && !q.qeq (GoNum.ofInt 1)
  | .bool _ => false
  | _ => true

/-- Position `j` of the code holds a negative entry. -/
def codeNeg (code : List Int) (j : Nat) : Prop :=
  ∃ e, code.get? j = some e ∧ e < 0

/-- What one compiler step guarantees about the chunk: the pool only grows
by rule-safe values, the code only grows, and no lasting negative entry is
created (every `-1` jump placeholder is patched before the step returns). -/
def CompExt (c c2 : Comp) : Prop :=
  (∀ v ∈ c2.chunk.consts, v ∈ c.chunk.consts ∨ poolSafeVal v = true)
  ∧ c.chunk.code.length ≤ c2.chunk.code.length
  ∧ ∀ j, codeNeg c2.chunk.code j → codeNeg c.chunk.code j

theorem compExt_refl (c : Comp) : CompExt c c :=
  ⟨fun v hv => Or.inl hv, le_refl _, fun _ h => h⟩

theorem compExt_trans {a b c : Comp} (h1 : CompExt a b) (h2 : CompExt b c) :
    CompExt a c := by
  refine ⟨fun v hv => ?_, le_trans h1.2.1 h2.2.1, fun j hj => h1.2.2 j (h2.2.2 j hj)⟩
  rcases h2.1 v hv with h | h
  · exact h1.1 v h
  · exact Or.inr h

theorem codeNeg_append {l l2 : List Int} {j : Nat}
    (h2 : ∀ e ∈ l2, 0 ≤ e) (h : codeNeg (l ++ l2) j) : codeNeg l j := by
  obtain ⟨e, hget, hneg⟩ := h
  by_cases hj : j < l.length
  · exact ⟨e, by rwa [List.get?_append hj] at hget, hneg⟩
  · exfalso
    rw [List.get?_append_right (le_of_not_lt hj)] at hget
    have : e ∈ l2 := List.get?_mem hget
    exact absurd (h2 e this) (not_le.mpr hneg)

theorem emit_code (c : Comp) (op : Int) (ops : List Int) :
    (c.emit op ops).chunk.code = c.chunk.code ++ op :: ops := rfl

theorem emit_consts (c : Comp) (op : Int) (ops : List Int) :
    (c.emit op ops).chunk.consts = c.chunk.consts := rfl

theorem compExt_emit (c : Comp) (op : Int) (ops : List Int)
    (hop : 0 ≤ op) (hops : ∀ o ∈ ops, 0 ≤ o) : CompExt c (c.emit op ops) := by
  refine ⟨fun v hv => Or.inl hv, ?_, fun j hj => ?_⟩
  · rw [emit_code]
    simp
  · refine @codeNeg_append _ (op :: ops) _ ?_ hj
    intro e he
    rcases List.mem_cons.mp he with rfl | h
    · exact hop
    · exact hops e h

theorem codeNeg_emit_placeholder {c : Comp} {op : Int} {j : Nat}
    (hop : 0 ≤ op) (h : codeNeg (c.emit op [-1]).chunk.code j) :
    codeNeg c.chunk.code j ∨ j = c.chunk.code.length + 1 := by
  obtain ⟨e, hget, hneg⟩ := h
  rw [emit_code] at hget
  by_cases hj : j < c.chunk.code.length
  · exact Or.inl ⟨e, by rwa [List.get?_append hj] at hget, hneg⟩
  · rw [List.get?_append_right (le_of_not_lt hj)] at hget
    rcases Nat.lt_or_ge (j - c.chunk.code.length) 2 with h2 | h2
    · interval_cases h : (j - c.chunk.code.length)
      · simp at hget
        omega
      · right
        omega
    · exfalso
      rw [List.get?_eq_none.mpr (by simpa using h2)] at hget
      exact Option.noConfusion hget

theorem addConst_code (c : Comp) (v : VMVal) :
    (c.addConst v).2.chunk.code = c.chunk.code := by
  unfold Comp.addConst Chunk.addConst
  dsimp only
  split
  all_goals first
  | rfl
  | (split <;> rfl)

theorem addConst_consts (c : Comp) (v : VMVal) :
    (c.addConst v).2.chunk.consts = c.chunk.consts
      ∨ (c.addConst v).2.chunk.consts = c.chunk.consts ++ [v] := by
  unfold Comp.addConst Chunk.addConst
  dsimp only
  split
  all_goals first
  | exact Or.inl rfl
  | (split <;> exact Or.inr rfl)

theorem compExt_addConst (c : Comp) (v : VMVal) (hv : poolSafeVal v = true) :
    CompExt c (c.addConst v).2 := by
  refine ⟨fun w hw => ?_, le_of_eq (by rw [addConst_code]), fun j hj => ?_⟩
  · rcases addConst_consts c v with h | h
    · exact Or.inl (h ▸ hw)
    · rw [h] at hw
      rcases List.mem_append.mp hw with h2 | h2
      · exact Or.inl h2
      · simp at h2
        exact Or.inr (h2 ▸ hv)
  · rwa [addConst_code] at hj

theorem ensureLocal_chunk (c : Comp) (n : String) :
    (c.ensureLocal n).2.chunk = c.chunk := by
  unfold Comp.ensureLocal
  dsimp only
  cases List.lookup n (Comp.scope c).locals <;> rfl

theorem compExt_ensureLocal (c : Comp) (n : String) : CompExt c (c.ensureLocal n).2 := by
  have h := ensureLocal_chunk c n
  exact ⟨fun v hv => Or.inl (by rwa [h] at hv), le_of_eq (by rw [h]), fun j hj => by rwa [h] at hj⟩

theorem patch_code (c : Comp) (pos t : Nat) :
    (c.patch pos t).chunk.code = c.chunk.code.set (pos + 1) (Int.ofNat t) := rfl

theorem patch_consts (c : Comp) (pos t : Nat) :
    (c.patch pos t).chunk.consts = c.chunk.consts := rfl

theorem patch_length (c : Comp) (pos t : Nat) :
    (c.patch pos t).chunk.code.length = c.chunk.code.length := by
  rw [patch_code, List.length_set]

theorem codeNeg_patch {c : Comp} {pos t : Nat} {j : Nat}
    (h : codeNeg (c.patch pos t).chunk.code j) :
    codeNeg c.chunk.code j ∧ (pos + 1 < c.chunk.code.length → j ≠ pos + 1) := by
  obtain ⟨e, hget, hneg⟩ := h
  rw [patch_code] at hget
  by_cases hj : j = pos + 1
  · subst hj
    by_cases hlt : pos + 1 < c.chunk.code.length
    · rw [List.get?_set_eq_of_lt _ hlt] at hget
      injection hget with he
      exfalso
      rw [← he] at hneg
      exact absurd hneg (not_lt.mpr (Int.ofNat_nonneg t))
    · rw [List.set_eq_of_length_le (le_of_not_lt hlt)] at hget
      exact ⟨⟨e, hget, hneg⟩, fun h2 _ => absurd h2 hlt⟩
  · rw [List.get?_set_ne _ _ (fun h2 => hj h2.symm)] at hget

    exact ⟨⟨e, hget, hneg⟩, fun _ => hj⟩

theorem compExt_emit1 (c : Comp) (op : Int) (n : Nat) (hop : 0 ≤ op) :
    CompExt c (c.emit op [Int.ofNat n]) := by
  refine compExt_emit c op _ hop ?_
  intro o ho
  simp at ho
  subst ho
  exact Int.ofNat_nonneg n

theorem compExt_emit0 (c : Comp) (op : Int) (hop : 0 ≤ op) :
    CompExt c (c.emit op []) := by
  refine compExt_emit c op [] hop ?_
  intro o ho
  simp at ho

theorem emit_length (c : Comp) (op : Int) (ops : List Int) :
    (c.emit op ops).chunk.code.length = c.chunk.code.length + ops.length + 1 := by
  rw [emit_code]
  simp
  omega

theorem mathOp_nonneg {ce : Stmt} {n : Nat} {opc : Int}
    (h : mathOpFor ce n = some opc) : 0 ≤ opc := by
  unfold mathOpFor at h
  repeat' split at h
  all_goals first
  | (injection h with h2; subst h2; decide)
  | (injection h)

/-- A bracketed jump: emit a `-1` placeholder, run any code-extending
middle part, then patch the placeholder with a nonnegative target.  The
whole bracket creates no lasting negative entry. -/
theorem compExt_patch_placeholder {a b : Comp} (op : Int) (hop : 0 ≤ op)
    (hmid : CompExt (a.emit op [-1]) b) (t : Nat) :
    CompExt a (b.patch (Comp.codeLen a) t) := by
  show CompExt a (b.patch a.chunk.code.length t)
  have hlen : a.chunk.code.length + 2 ≤ b.chunk.code.length := by
    have := hmid.2.1
    rwa [emit_length] at this
  refine ⟨fun v hv => ?_, ?_, fun j hj => ?_⟩
  · rw [patch_consts] at hv
    have := hmid.1 v hv
    rwa [emit_consts] at this
  · rw [patch_length]
    omega
  · obtain ⟨hb, hne⟩ := codeNeg_patch hj
    have hne2 : j ≠ a.chunk.code.length + 1 := hne (by omega)
    have := hmid.2.2 j hb
    rcases codeNeg_emit_placeholder hop this with h | h
    · exact h
    · exact absurd h hne2

theorem compileFunction_poolSafe {f : Nat} {n : String} {ps : List String}
    {b : List Stmt} {v : VMVal}
    (h : compileFunction f n ps b = some v) : poolSafeVal v = true := by
  match f with
  | 0 =>
    rw [compileFunction] at h
    exact Option.noConfusion h
  | Nat.succ f =>
    rw [compileFunction] at h
    split at h
    · exact Option.noConfusion h
    · injection h with h2
      subst h2
      rfl



theorem compExt_addConst_str (c : Comp) (s : String) :
    CompExt c (c.addConst (.str s)).2 := compExt_addConst c _ rfl

theorem compExt_addConst_null (c : Comp) :
    CompExt c (c.addConst .nullv).2 := compExt_addConst c _ rfl

/-- The crossed jump brackets of an `if`: the `JUMP_IF_FALSE` placeholder
(at the end of `c1`) is patched after the `JUMP` placeholder (at the end of
`c3`) is emitted, and the `JUMP` placeholder is patched at the very end;
any code-extending step may sit between the first patch and the second. -/
theorem compExt_if_bracket {c1 c3 X : Comp} {t1 t2 : Nat}
    (E3 : CompExt (c1.emit OP_JUMP_IF_FALSE [-1]) c3)
    (E6g : CompExt ((c3.emit OP_JUMP [-1]).patch (Comp.codeLen c1) t1) X) :
    CompExt c1 (X.patch (Comp.codeLen c3) t2) := by
  have E6 : CompExt ((c3.emit OP_JUMP [-1]).patch c1.chunk.code.length t1) X := E6g
  show CompExt c1 (X.patch c3.chunk.code.length t2)
  have lenA3 : c1.chunk.code.length + 2 ≤ c3.chunk.code.length := by
    have h2 := E3.2.1
    rw [emit_length] at h2
    simp at h2
    omega
  have lenC : ((c3.emit OP_JUMP [-1]).patch c1.chunk.code.length t1).chunk.code.length
      = c3.chunk.code.length + 2 := by
    rw [patch_length, emit_length]
    simp
  have lenX : c3.chunk.code.length + 2 ≤ X.chunk.code.length := by
    have h2 := E6.2.1
    rw [lenC] at h2
    exact h2
  refine ⟨fun v hv => ?_, ?_, fun j hj => ?_⟩
  · rw [patch_consts] at hv
    rcases E6.1 v hv with h6 | h6
    · rw [patch_consts, emit_consts] at h6
      rcases E3.1 v h6 with h3 | h3
      · rw [emit_consts] at h3
        exact Or.inl h3
      · exact Or.inr h3
    · exact Or.inr h6
  · rw [patch_length]
    omega
  · obtain ⟨hX, hneX⟩ := codeNeg_patch hj
    have hne_je : j ≠ c3.chunk.code.length + 1 := hneX (by omega)
    have hC := E6.2.2 j hX
    obtain ⟨hB, hneB⟩ := codeNeg_patch hC
    have hne_jf : j ≠ c1.chunk.code.length + 1 := by
      refine hneB ?_
      rw [emit_length]
      simp
      omega
    rcases codeNeg_emit_placeholder (by decide) hB with h3 | h3
    · have hA := E3.2.2 j h3
      rcases codeNeg_emit_placeholder (by decide) hA with h1 | h1
      · exact h1
      · exact absurd h1 hne_jf
    · exact absurd h3 hne_je

/-- The compile functions only extend the chunk with rule-safe pool values
and nonnegative code entries (every jump placeholder is patched within the
step that emits it). -/
theorem compileInvAll : ∀ fuel : Nat,
    (∀ s c cR, compileStmt fuel s c = some cR → CompExt c cR)
    ∧ (∀ l c cR, compileList fuel l c = some cR → CompExt c cR)
    ∧ (∀ e c cR, compileExpr fuel e c = some cR → CompExt c cR)
    ∧ (∀ el c cR, compileExprList fuel el c = some cR → CompExt c cR) := by
  intro fuel
  induction fuel with
  | zero =>
    refine ⟨fun s c cR h => ?_, fun l c cR h => ?_, fun e c cR h => ?_,
      fun el c cR h => ?_⟩
    · rw [compileStmt] at h
      exact Option.noConfusion h
    · rw [compileList] at h
      exact Option.noConfusion h
    · rw [compileExpr] at h
      exact Option.noConfusion h
    · rw [compileExprList] at h
      exact Option.noConfusion h
  | succ f ih =>
    obtain ⟨ihS, ihL, ihE, ihEL⟩ := ih
    refine ⟨fun s c cR h => ?_, fun l c cR h => ?_, fun e c cR h => ?_,
      fun el c cR h => ?_⟩
    · -- compileStmt
      cases s <;> simp only [compileStmt] at h
      case varDeclaration ident value cflag =>
        split at h
        · exact Option.noConfusion h
        next c1 heq =>
          split at h <;> (injection h with h2; subst h2)
          · exact compExt_trans (ihE _ _ _ heq)
              (compExt_trans (compExt_addConst_str _ _) (compExt_emit1 _ _ _ (by decide)))
          · exact compExt_trans (ihE _ _ _ heq)
              (compExt_trans (compExt_ensureLocal _ _) (compExt_emit1 _ _ _ (by decide)))
      case assignmentExpr assignee value =>
        cases assignee <;> (try dsimp only at h)
        case identifier sym =>
          split at h
          · exact Option.noConfusion h
          next c1 heq =>
            split at h
            next slot hl =>
              injection h with h2
              subst h2
              exact compExt_trans (ihE _ _ _ heq) (compExt_emit1 _ _ _ (by decide))
            next hl =>
              injection h with h2
              subst h2
              exact compExt_trans (ihE _ _ _ heq)
                (compExt_trans (compExt_addConst_str _ _) (compExt_emit1 _ _ _ (by decide)))
        all_goals
          injection h with h2
        all_goals
          subst h2
        all_goals
          exact compExt_refl c
      case ifStatement cond cons alt =>
        split at h
        · exact Option.noConfusion h
        next c1 heq1 =>
          split at h
          · exact Option.noConfusion h
          next c3 heq2 =>
            have E1 := ihE _ _ _ heq1
            have E3 := ihL _ _ _ heq2
            split at h
            next b =>
              split at h
              · exact Option.noConfusion h
              next c6 heq3 =>
                injection h with h2
                subst h2
                exact compExt_trans E1 (compExt_if_bracket E3 (ihL _ _ _ heq3))
            next =>
              injection h with h2
              subst h2
              exact compExt_trans E1 (compExt_if_bracket E3 (compExt_refl _))
      case whileStatement cond body =>
        split at h
        · exact Option.noConfusion h
        next c1 heq1 =>
          split at h
          · exact Option.noConfusion h
          next c3 heq2 =>
            injection h with h2
            subst h2
            refine compExt_trans (ihE _ _ _ heq1)
              (compExt_patch_placeholder OP_JUMP_IF_FALSE (by decide) ?_ _)
            exact compExt_trans (ihL _ _ _ heq2) (compExt_emit1 _ _ _ (by decide))
      case forStatement ident rng body =>
        split at h
        · exact Option.noConfusion h
        next c3 heq1 =>
          split at h
          · exact Option.noConfusion h
          next c6 heq2 =>
            injection h with h2
            subst h2
            refine compExt_trans (compExt_ensureLocal c ident) ?_
            refine compExt_trans (compExt_emit0 _ OP_LOAD_CONST_0 (by decide)) ?_
            refine compExt_trans
              (compExt_emit1 _ OP_STORE_LOCAL (c.ensureLocal ident).1 (by decide)) ?_
            refine compExt_trans (ihE _ _ _ heq1) ?_
            refine compExt_trans
              (compExt_emit1 _ OP_FOR_LOOP_NEXT (c.ensureLocal ident).1 (by decide)) ?_
            refine compExt_trans
              (compExt_patch_placeholder OP_JUMP_IF_FALSE (by decide) ?_ _)
              (compExt_emit0 _ OP_POP (by decide))
            exact compExt_trans (ihL _ _ _ heq2) (compExt_emit1 _ _ _ (by decide))
      case functionDeclaration name params body =>
        split at h
        · exact Option.noConfusion h
        next fnv heqf =>
          split at h <;> (injection h with h2; subst h2)
          · exact compExt_trans (compExt_addConst _ _ (compileFunction_poolSafe heqf))
              (compExt_trans (compExt_addConst_str _ _)
                (compExt_trans (compExt_emit1 _ _ _ (by decide))
                  (compExt_emit1 _ _ _ (by decide))))
          · exact compExt_trans (compExt_addConst _ _ (compileFunction_poolSafe heqf))
              (compExt_trans (compExt_ensureLocal _ _)
                (compExt_trans (compExt_emit1 _ _ _ (by decide))
                  (compExt_emit1 _ _ _ (by decide))))
      case returnStatement value =>
        split at h
        · exact Option.noConfusion h
        next c1 heq =>
          injection h with h2
          subst h2
          exact compExt_trans (ihE _ _ _ heq) (compExt_emit0 _ _ (by decide))
      all_goals try exact Option.noConfusion h
      all_goals
        split at h
        · exact Option.noConfusion h
        next c1 heq =>
          injection h with h2
          subst h2
          exact compExt_trans (ihE _ _ _ heq) (compExt_emit0 _ _ (by decide))
    · -- compileList
      cases l with
      | nil =>
        simp only [compileList] at h
        injection h with h2
        subst h2
        exact compExt_refl c
      | cons s rest =>
        simp only [compileList] at h
        split at h
        · exact Option.noConfusion h
        next c1 heq =>
          exact compExt_trans (ihS _ _ _ heq) (ihL _ _ _ h)
    · -- compileExpr
      cases e <;> simp only [compileExpr] at h
      case numericLiteral q =>
        split at h
        · injection h with h2
          subst h2
          exact compExt_emit0 _ _ (by decide)
        next hq0 =>
          split at h
          · injection h with h2
            subst h2
            exact compExt_emit0 _ _ (by decide)
          next hq1 =>
            injection h with h2
            subst h2
            have h0 : q.qeq (GoNum.ofInt 0) = false := by
              cases hb : q.qeq (GoNum.ofInt 0)
              · rfl
              · exact absurd hb hq0
            have h1 : q.qeq (GoNum.ofInt 1) = false := by
              cases hb : q.qeq (GoNum.ofInt 1)
              · rfl
              · exact absurd hb hq1
            refine compExt_trans (compExt_addConst _ _ ?_) (compExt_emit1 _ _ _ (by decide))
            simp [poolSafeVal, h0, h1]
      case stringLiteral sv =>
        injection h with h2
        subst h2
        exact compExt_trans (compExt_addConst_str _ _) (compExt_emit1 _ _ _ (by decide))
      case booleanLiteral b =>
        injection h with h2
        subst h2
        cases b
        · exact compExt_emit0 _ _ (by decide)
        · exact compExt_emit0 _ _ (by decide)
      case identifier sym =>
        split at h
        next slot hl =>
          injection h with h2
          subst h2
          exact compExt_emit1 _ _ _ (by decide)
        next hl =>
          injection h with h2
          subst h2
          exact compExt_trans (compExt_addConst_str _ _) (compExt_emit1 _ _ _ (by decide))
      case binaryExpr lf rgt opstr =>
        split at h
        · exact Option.noConfusion h
        next c1 heq1 =>
          split at h
          · exact Option.noConfusion h
          next c2 heq2 =>
            injection h with h2
            subst h2
            refine compExt_trans (ihE _ _ _ heq1) (compExt_trans (ihE _ _ _ heq2) ?_)
            repeat' split
            all_goals first
            | exact compExt_emit0 _ _ (by decide)
            | exact compExt_refl _
      case callExpr callee args =>
        split at h
        next opc hm =>
          split at h
          · exact Option.noConfusion h
          next c1 heq =>
            injection h with h2
            subst h2
            exact compExt_trans (ihEL _ _ _ heq) (compExt_emit0 _ _ (mathOp_nonneg hm))
        next hm =>
          split at h
          · exact Option.noConfusion h
          next c1 heq1 =>
            split at h
            · exact Option.noConfusion h
            next c2 heq2 =>
              injection h with h2
              subst h2
              exact compExt_trans (ihE _ _ _ heq1)
                (compExt_trans (ihEL _ _ _ heq2) (compExt_emit1 _ _ _ (by decide)))
      case memberExpr obj prop =>
        split at h
        · exact Option.noConfusion h
        next c1 heq =>
          injection h with h2
          subst h2
          exact compExt_trans (ihE _ _ _ heq)
            (compExt_trans (compExt_addConst_str _ _) (compExt_emit1 _ _ _ (by decide)))
      all_goals
        injection h with h2
      all_goals
        subst h2
      all_goals
        exact compExt_trans (compExt_addConst_null _) (compExt_emit1 _ _ _ (by decide))
    · -- compileExprList
      cases el with
      | nil =>
        simp only [compileExprList] at h
        injection h with h2
        subst h2
        exact compExt_refl c
      | cons e rest =>
        simp only [compileExprList] at h
        split at h
        · exact Option.noConfusion h
        next c1 heq =>
          exact compExt_trans (ihE _ _ _ heq) (ihEL _ _ _ h)

/-- Every chunk the compiler hands to `optimize` has a rule-safe pool,
nonnegative code entries, and `OP_RET` as its final entry. -/
theorem compileProgramRaw_props {f : Nat} {body : List Stmt} {ch : Chunk} {lm : Nat}
    (h : compileProgramRaw f body = some (ch, lm)) :
    (∀ v ∈ ch.consts, poolSafeVal v = true)
    ∧ (∀ j e, ch.code.get? j = some e → 0 ≤ e)
    ∧ ch.code.get? (ch.code.length - 1) = some OP_RET := by
  unfold compileProgramRaw at h
  split at h
  · exact Option.noConfusion h
  next c1 heq =>
    injection h with h2
    injection h2 with hch hlm
    subst hch
    have E := (compileInvAll f).2.1 body NewCompiler c1 heq
    have hcode2 : ((c1.emit OP_LOAD_NULL []).emit OP_RET []).chunk.code
        = (c1.chunk.code ++ [OP_LOAD_NULL]) ++ [OP_RET] := by
      rw [emit_code, emit_code]
    refine ⟨fun v hv => ?_, fun j e hg => ?_, ?_⟩
    · rw [emit_consts, emit_consts] at hv
      rcases E.1 v hv with hmem | hs
      · exact absurd hmem (List.not_mem_nil v)
      · exact hs
    · by_contra hlt
      have hcn : codeNeg ((c1.emit OP_LOAD_NULL []).emit OP_RET []).chunk.code j :=
        ⟨e, hg, by omega⟩
      rw [hcode2] at hcn
      have hcn2 := @codeNeg_append _ [OP_RET] _
        (by intro x hx; simp at hx; subst hx; decide) hcn
      have hcn3 := @codeNeg_append _ [OP_LOAD_NULL] _
        (by intro x hx; simp at hx; subst hx; decide) hcn2
      have := E.2.2 j hcn3
      obtain ⟨e2, hg2, _⟩ := this
      exact Option.noConfusion hg2
    · rw [hcode2]
      have hlen : ((c1.chunk.code ++ [OP_LOAD_NULL]) ++ [OP_RET]).length
          = (c1.chunk.code ++ [OP_LOAD_NULL]).length + 1 := by simp
      rw [hlen]
      simp only [Nat.add_sub_cancel]
      exact List.get?_concat_length _ _

/-- With a rule-safe pool and nonnegative code the first peephole rule
never fires and never panics. -/
theorem rule1_skip {consts : List VMVal} {arr : List Int} {i : Nat}
    (hsafe : ∀ v ∈ consts, poolSafeVal v = true)
    (hnn : ∀ j e, arr.get? j = some e → 0 ≤ e) :
    rule1 consts arr i = .skip := by
  unfold rule1
  dsimp only
  split
  next hcond =>
    have he1 : 0 ≤ (arr.get? (i + 1)).getD 0 := by
      cases hg : arr.get? (i + 1) with
      | none => simp
      | some e =>
        simp only [Option.getD_some]
        exact hnn (i + 1) e hg
    rw [if_neg (not_lt.mpr he1)]
    cases hc : consts.get? ((arr.get? (i + 1)).getD 0).toNat with
    | none => rfl
    | some v =>
      have hs := hsafe v (List.get?_mem hc)
      cases v
      case num q =>
        simp only [poolSafeVal, Bool.and_eq_true, Bool.not_eq_true'] at hs
        simp [hs.1, hs.2]
      case bool b => simp [poolSafeVal] at hs
      all_goals rfl
  · rfl

/-- With a rule-safe pool, nonnegative code, and `OP_RET` as the final
entry, the second peephole rule never fires and never panics (in
particular its unguarded `code[i+6]` read stays in bounds). -/
theorem rule2_skip {consts : List VMVal} {arr : List Int} {i : Nat}
    (hsafe : ∀ v ∈ consts, poolSafeVal v = true)
    (hnn : ∀ j e, arr.get? j = some e → 0 ≤ e)
    (hlast : arr.get? (arr.length - 1) = some OP_RET) :
    rule2 consts arr i = .skip := by
  unfold rule2
  dsimp only
  split
  next hcond =>
    obtain ⟨hi5, hA, hB, hC, hD⟩ := hcond
    have h6 : i + 6 < arr.length := by
      rcases Nat.lt_or_ge (i + 6) arr.length with hlt | hge
      · exact hlt
      · exfalso
        have he : i + 5 = arr.length - 1 := by omega
        rw [he, hlast] at hD
        exact absurd hD (by decide)
    cases hg : arr.get? (i + 6) with
    | none =>
      exfalso
      rw [List.get?_eq_none] at hg
      omega
    | some v6 =>
      dsimp only
      by_cases hv6 : (arr.get? (i + 1)).getD 0 = v6
      · rw [if_pos hv6]
        have hc3 : 0 ≤ (arr.get? (i + 3)).getD 0 := by
          cases hg3 : arr.get? (i + 3) with
          | none => simp
          | some e =>
            simp only [Option.getD_some]
            exact hnn (i + 3) e hg3
        by_cases hlt : (arr.get? (i + 3)).getD 0 < (consts.length : Int)
        · rw [if_pos hlt, if_neg (not_lt.mpr hc3)]
          cases hc : consts.get? ((arr.get? (i + 3)).getD 0).toNat with
          | none => rfl
          | some v =>
            have hs := hsafe v (List.get?_mem hc)
            cases v <;> first
            | rfl
            | (simp only [poolSafeVal, Bool.and_eq_true, Bool.not_eq_true'] at hs
               simp [hs.2])
        · rw [if_neg hlt]
      · rw [if_neg hv6]
  · rfl

/-- On such a chunk the whole scan is the identity: no rule fires, nothing
panics, and the chunk keeps its original code and length. -/
theorem optAux_id {consts : List VMVal} {arr : List Int}
    (hsafe : ∀ v ∈ consts, poolSafeVal v = true)
    (hnn : ∀ j e, arr.get? j = some e → 0 ≤ e)
    (hlast : arr.get? (arr.length - 1) = some OP_RET) :
    ∀ (fl i outLen : Nat), optAux consts fl arr i outLen = some (arr, outLen) := by
  intro fl
  induction fl with
  | zero =>
    intro i outLen
    rw [optAux]
  | succ fl ihfl =>
    intro i outLen
    rw [optAux]
    split
    · rw [rule1_skip hsafe hnn, rule2_skip hsafe hnn hlast]
      exact ihfl (i + 1) outLen
    · rfl

/-- `optimize` is the identity on every chunk the compiler produces. -/
theorem optimize_id {consts : List VMVal} {code : List Int}
    (hsafe : ∀ v ∈ consts, poolSafeVal v = true)
    (hnn : ∀ j e, code.get? j = some e → 0 ≤ e)
    (hlast : code.get? (code.length - 1) = some OP_RET) :
    optimize consts code = some code := by
  unfold optimize
  rw [optAux_id hsafe hnn hlast]
  dsimp only
  rw [List.take_length]

/-- C4: on every chunk the compiler produces for an AST program, the
peephole pass is the identity -- the compiler emits fast opcodes for the
constants 0, 1, true and false, so the pool can never hold a value either
rewrite rule looks for, no rule fires, the scan panics on nothing (the
final `OP_RET` keeps its unguarded `code[i+6]` read in bounds), and the
patched absolute jump targets are untouched -- and therefore the VM
computes the same outcome on the optimised chunk as on the unoptimised one,
for every math oracle, builtin table, module table, fuel, and globals
environment. -/
theorem c4_peephole_preserves_vm_semantics :
    ∀ (f : Nat) (body : List Stmt) (ch : Chunk) (lm : Nat),
      compileProgramRaw f body = some (ch, lm) →
      optimize ch.consts ch.code = some ch.code
      ∧ ∀ optCode : List Int, optimize ch.consts ch.code = some optCode →
          ∀ (mo : MathOracle) (bi : Nat → List VMVal → Except String VMVal)
            (mods : String → Option VMVal) (fuel : Nat)
            (gvars : List (String × VMVal)) (gconsts : List String),
            runVM mo bi mods fuel (.fn "<main>" 0 optCode ch.consts lm) gvars gconsts
              = runVM mo bi mods fuel (.fn "<main>" 0 ch.code ch.consts lm) gvars gconsts := by
  intro f body ch lm h
  obtain ⟨hsafe, hnn, hlast⟩ := compileProgramRaw_props h
  have hid := optimize_id hsafe hnn hlast
  refine ⟨hid, fun optCode hopt => ?_⟩
  rw [hid] at hopt
  injection hopt with h2
  subst h2
  intro mo bi mods fuel gvars gconsts
  rfl

/-- Program for the C4 witness: `let x = 5  if (x < 3) { x = 7 }  x`. -/
def c4prog : List Stmt :=
  [.varDeclaration "x" (.numericLiteral (GoNum.ofInt 5)) false,
   .ifStatement (.binaryExpr (.identifier "x") (.numericLiteral (GoNum.ofInt 3)) "<")
     [.assignmentExpr (.identifier "x") (.numericLiteral (GoNum.ofInt 7))]
     none,
   .identifier "x"]

/-- The chunk the compiler produces for `c4prog`. -/
def c4chunk : Chunk :=
  ⟨[0, 0, 2, 1, 1, 1, 0, 2, 11, 16, 17, 0, 3, 2, 1, 15, 17, 1, 1, 19, 29, 18],
   [.num ⟨5, 1⟩, .str "x", .num ⟨3, 1⟩, .num ⟨7, 1⟩],
   [("num:5.000000", 0), ("str:x", 1), ("num:3.000000", 2), ("num:7.000000", 3)]⟩

/-- Witness for C4 at the concrete program `c4prog`. -/
theorem c4_peephole_preserves_vm_semantics_witness :
    optimize c4chunk.consts c4chunk.code = some c4chunk.code
    ∧ ∀ optCode : List Int, optimize c4chunk.consts c4chunk.code = some optCode →
        ∀ (mo : MathOracle) (bi : Nat → List VMVal → Except String VMVal)
          (mods : String → Option VMVal) (fuel : Nat)
          (gvars : List (String × VMVal)) (gconsts : List String),
          runVM mo bi mods fuel (.fn "<main>" 0 optCode c4chunk.consts 0) gvars gconsts
            = runVM mo bi mods fuel (.fn "<main>" 0 c4chunk.code c4chunk.consts 0) gvars gconsts :=
  c4_peephole_preserves_vm_semantics 10 c4prog c4chunk 0 rfl

end DYMS
